import Mathlib

/-!
# A shallow embedding of the LIMEX expression library (limex.h)

This file models the `LIMEX` header-only C++ library at its `double`
instantiation (`Expression<double>` with collection type `std::vector<double>`):

* the hand-written tokenizer `Expression::tokenize` over the input string,
* the precedence-climbing tree builder `Expression::buildTree`,
* the recursive evaluator `Node::evaluate`,
* the callable registry `Handle<double>` with its built-in callables.

Modelling conventions:

* The numeric type `double` is modelled by `ℚ`.  All inputs exercised by the
  theorems below stay inside the subset of `double` arithmetic that is exact
  (small integers, halves), where `ℚ` and IEEE doubles agree.
* `std::pow` is modelled by `powModel`, which agrees with `std::pow` for
  integer exponents with a nonzero base; `sqrt`/`cbrt` values are not needed
  by any theorem and are modelled abstractly (their arity checks are exact).
* C++ exceptions are modelled by `Except String`; the dynamic suffixes of the
  `what()` messages (the offending input fragment) are omitted.
* Strings are modelled as `List Char`.  Every input appearing in a theorem is
  ASCII, where byte-wise and character-wise processing coincide.
* Loops are modelled with explicit fuel.  Every iteration of the tokenizer
  loop consumes at least one input character, so `length + 1` units of fuel
  are always sufficient; exhausted fuel yields the reserved error
  `"MODEL: out of fuel"`, which never occurs on the concrete runs below.
  Situations that are undefined behaviour in C++ (reading past the end of a
  vector, variant misaccess, popping an empty stack) are mapped to reserved
  `"MODEL: ..."` errors as well.
-/

namespace LIMEX

/-- Error monad result for the modelled library: `what()` strings. -/
abbrev Err := String

/-- `Expression::isnumeric`: digits and dots. -/
def isnumeric (c : Char) : Bool := c.isDigit || c = '.'

/-- `Expression::isalphanumeric`: `std::isalnum` (C locale, ASCII) or `_`. -/
def isalphanumeric (c : Char) : Bool := c.isAlpha || c.isDigit || c = '_'

/-- `std::isspace` for the C locale. -/
def isspace (c : Char) : Bool :=
  c = ' ' || c = '\t' || c = '\n' || c = '\x0b' || c = '\x0c' || c = '\r'

/-- Token categories (`Token::Category`). -/
inductive Cat where
  | PREFIX | OPERAND | POSTFIX | INFIX
deriving DecidableEq, Repr

/-- Token types (`Token::Type`). -/
inductive TType where
  | NUMBER | VARIABLE | COLLECTION | OPERATOR | SEPARATOR | GROUP | SET
  | SEQUENCE | FUNCTION_CALL | AGGREGATION | INDEXED_VARIABLE
deriving DecidableEq, Repr

/-- A token (`struct Token`): category, type, lexeme, nested tokens. -/
inductive Token where
  | mk (category : Cat) (ttype : TType) (value : String) (children : List Token)
deriving Repr

def Token.category : Token → Cat | .mk c _ _ _ => c
def Token.ttype : Token → TType | .mk _ t _ _ => t
def Token.value : Token → String | .mk _ _ v _ => v
def Token.children : Token → List Token | .mk _ _ _ ch => ch

/-- `Expression::startsWith`: `input` continues with `candidate` at the
current position, and if the candidate ends in an identifier character the
next input character must not be an identifier character (word boundary). -/
def startsWithL (rest cand : List Char) : Bool :=
  cand.isPrefixOf rest &&
    (match cand.getLast? with
     | none => true
     | some c =>
       if isalphanumeric c then
         match rest.drop cand.length with
         | [] => true
         | d :: _ => !(isalphanumeric d)
       else true)

/-- `Expression::fetch`: first candidate (in array order) matching at the
current position, or `[]`. -/
def fetch (rest : List Char) : List (List Char) → List Char
  | [] => []
  | c :: cs => if startsWithL rest c then c else fetch rest cs

/-- The `keywords` array. -/
def keywordsList : List (List Char) := ["false".data, "true".data]

/-- The `prefix` operator array. -/
def prefixOps : List (List Char) := ["!".data, "¬".data, "-".data]

/-- The `infix` operator array (match order matters). -/
def infixOps : List (List Char) :=
  [",".data, "==".data, "!=".data, "<=".data, ">=".data, "<".data, ">".data,
   ":=".data, "≔".data, "+=".data, "-=".data, "*=".data, "/=".data,
   "+".data, "-".data, "*".data, "/".data, "^".data, "&&".data, "||".data,
   "?".data, ":".data, "and".data, "or".data, "in".data, "not in".data,
   "≠".data, "≤".data, "≥".data, "∧".data, "∨".data, "∈".data, "∉".data]

/-- The `postfix` operator array. -/
def postfixOps : List (List Char) := ["²".data, "³".data]

/-- The `symbolic_names` array. -/
def symbolicNames : List (List Char) := ["∑".data, "√".data, "∛".data]

/-- The `aliases` map for symbolic names. -/
def aliasOf (s : List Char) : String :=
  if s = "∑".data then "sum" else if s = "√".data then "sqrt"
  else if s = "∛".data then "cbrt" else ""

/-- One entry of the tokenizer's group stack: the token whose `children` are
being collected, and the terminator that closes it.  (The C++ code stores a
pointer into the parent's `children`; here the finished token is appended to
the parent when the frame is popped, which preserves the order of appends.) -/
structure Frame where
  tok : Token
  term : List Char

/-- Append a token to the children of the top frame. -/
def appendTop (fs : List Frame) (t : Token) : List Frame :=
  match fs with
  | [] => []
  | f :: r =>
    { f with tok := .mk f.tok.category f.tok.ttype f.tok.value (f.tok.children ++ [t]) } :: r

/-- Open a new group: push a frame for the freshly created token. -/
def pushFrame (fs : List Frame) (cat : Cat) (ty : TType) (v : String)
    (term : List Char) : List Frame :=
  ⟨.mk cat ty v [], term⟩ :: fs

/-- Close the top frame, appending its finished token to the parent frame.
Popping the root frame is undefined behaviour in the C++ (`top()` on an
empty stack afterwards); modelled as a reserved error. -/
def closeTop (fs : List Frame) : Except Err (List Frame) :=
  match fs with
  | f :: g :: r => .ok (appendTop (g :: r) f.tok)
  | _ => .error "MODEL: group stack underflow"

/-- End of input: the group stack must contain exactly the root. -/
def finishTok (fs : List Frame) : Except Err Token :=
  match fs with
  | [f] => .ok f.tok
  | _ => .error "LIMEX: Unbalanced parentheses, brackets, or braces"

/-- Result of one iteration of the tokenizer's `while` body. -/
inductive IterStep where
  | done (t : Token)
  | next (rest : List Char) (expected : Cat) (fs : List Frame)

/-- Result of the `expected == OPERAND` block: either a `continue` (a full
iteration step) or a fall-through to the rest of the loop body. -/
inductive OpRes where
  | cont (s : IterStep)
  | fall (rest : List Char) (expected : Cat) (fs : List Frame)

/-- The `expected == OPERAND` block of `Expression::tokenize`. -/
def stageOperand (rest : List Char) (fs : List Frame) : Except Err OpRes := do
  let kw := fetch rest keywordsList
  if kw ≠ [] then
    -- `true`/`false` keywords become NUMBER tokens "1"/"0"
    let v : String := if kw = "true".data then "1" else "0"
    pure (.cont (.next (rest.drop kw.length) .INFIX
      (appendTop fs (.mk .OPERAND .NUMBER v []))))
  else if startsWithL rest "if".data then
    -- ternary keyword `if` opens a PREFIX GROUP closed by `then`
    pure (.cont (.next (rest.drop 2) .PREFIX
      (pushFrame fs .PREFIX .GROUP "if" "then".data)))
  else if startsWithL rest "then".data || startsWithL rest "else".data then
    -- close current group upon `then` / `else` (handled by the closure logic)
    pure (.fall rest .INFIX fs)
  else
    match rest with
    | [] => throw "MODEL: unreachable empty operand"
    | c :: _ =>
      if isnumeric c then
        let num := rest.takeWhile isnumeric
        pure (.fall (rest.dropWhile isnumeric) .POSTFIX
          (appendTop fs (.mk .OPERAND .NUMBER ⟨num⟩ [])))
      else if isalphanumeric c then
        let name := rest.takeWhile isalphanumeric
        let rest' := rest.dropWhile isalphanumeric
        match rest' with
        | '(' :: r2 =>
          pure (.cont (.next r2 .PREFIX
            (pushFrame fs .OPERAND .FUNCTION_CALL ⟨name⟩ ")".data)))
        | _ =>
          if startsWithL rest' "[]".data then
            pure (.fall (rest'.drop 2) .OPERAND
              (appendTop fs (.mk .OPERAND .COLLECTION ⟨name⟩ [])))
          else match rest' with
          | '[' :: r2 =>
            pure (.cont (.next r2 .PREFIX
              (pushFrame fs .OPERAND .INDEXED_VARIABLE ⟨name⟩ "]".data)))
          | '{' :: r2 =>
            pure (.cont (.next r2 .PREFIX
              (pushFrame fs .OPERAND .AGGREGATION ⟨name⟩ "\x7d".data)))
          | _ =>
            pure (.fall rest' .POSTFIX
              (appendTop fs (.mk .OPERAND .VARIABLE ⟨name⟩ [])))
      else
        let sym := fetch rest symbolicNames
        if sym ≠ [] then
          match rest.drop sym.length with
          | '(' :: r2 =>
            pure (.cont (.next r2 .PREFIX
              (pushFrame fs .OPERAND .FUNCTION_CALL (aliasOf sym) ")".data)))
          | '{' :: r2 =>
            pure (.cont (.next r2 .PREFIX
              (pushFrame fs .OPERAND .AGGREGATION (aliasOf sym) "\x7d".data)))
          | _ => throw "LIMEX: Symbolic names must be followed by parenthesis or braces"
        else match rest with
        | '(' :: r2 =>
          pure (.cont (.next r2 .PREFIX (pushFrame fs .OPERAND .GROUP "" ")".data)))
        | '{' :: r2 =>
          pure (.cont (.next r2 .PREFIX (pushFrame fs .OPERAND .SET "" "\x7d".data)))
        | '[' :: r2 =>
          pure (.cont (.next r2 .PREFIX (pushFrame fs .OPERAND .SEQUENCE "" "]".data)))
        | _ => throw "LIMEX: Unexpected operand"

/-- The closure block of `Expression::tokenize` (step 6), entered when the
remaining input starts with the terminator of the top frame. -/
def stageClose (rest : List Char) (fs : List Frame) (term : List Char) :
    Except Err IterStep := do
  if term = "then".data then
    -- consume closure of the `if` group and open the `then` group
    let fs' ← closeTop fs
    pure (.next (rest.drop term.length) .PREFIX
      (pushFrame fs' .INFIX .GROUP "then" "else".data))
  else if term = ":".data || term = "else".data then
    -- consume closure of the group, append INFIX OPERATOR `:` / `else`
    let fs' ← closeTop fs
    pure (.next (rest.drop term.length) .PREFIX
      (appendTop fs' (.mk .INFIX .OPERATOR ⟨term⟩ [])))
  else do
    let fs' ← closeTop fs
    pure (.next (rest.drop term.length) .POSTFIX fs')

/-- One full iteration of the `while` body of `Expression::tokenize`. -/
def iter (rest0 : List Char) (exp0 : Cat) (fs0 : List Frame) :
    Except Err IterStep := do
  let rest1 := rest0.dropWhile isspace
  if rest1 = [] then
    (finishTok fs0).map .done
  else
    -- expected == PREFIX: consume an optional prefix operator
    let (rest2, exp2, fs2) ←
      if exp0 = .PREFIX then do
        let m := fetch rest1 prefixOps
        if m ≠ [] then
          let r := rest1.drop m.length
          if r = [] then
            throw "LIMEX: Prefix operator must be followed by operand"
          else
            pure (r, Cat.OPERAND, appendTop fs0 (.mk .PREFIX .OPERATOR ⟨m⟩ []))
        else pure (rest1, Cat.OPERAND, fs0)
      else pure (rest1, exp0, fs0)
    -- expected == OPERAND block (may `continue`)
    let opr ←
      if exp2 = .OPERAND then stageOperand rest2 fs2
      else pure (.fall rest2 exp2 fs2)
    match opr with
    | .cont s => pure s
    | .fall rest3 exp3 fs3 => do
      -- expected == POSTFIX: consume an optional postfix operator
      let (rest4, exp4, fs4) ←
        if exp3 = .POSTFIX then do
          let m := fetch rest3 postfixOps
          if m ≠ [] then
            pure (rest3.drop m.length, Cat.INFIX,
              appendTop fs3 (.mk .POSTFIX .OPERATOR ⟨m⟩ []))
          else pure (rest3, Cat.INFIX, fs3)
        else pure (rest3, exp3, fs3)
      let rest5 := rest4.dropWhile isspace
      if rest5 = [] then
        (finishTok fs4).map .done
      else
        -- closure of the currently open group
        let term := (fs4.headD ⟨.mk .OPERAND .GROUP "" [], []⟩).term
        if startsWithL rest5 term then
          stageClose rest5 fs4 term
        else if exp4 = .INFIX then
          match rest5 with
          | ',' :: r =>
            pure (.next r .PREFIX (appendTop fs4 (.mk .INFIX .SEPARATOR "," [])))
          | '?' :: r =>
            pure (.next r .PREFIX (pushFrame fs4 .INFIX .GROUP "?" ":".data))
          | _ =>
            let m := fetch rest5 infixOps
            if m ≠ [] then
              pure (.next (rest5.drop m.length) .PREFIX
                (appendTop fs4 (.mk .INFIX .OPERATOR ⟨m⟩ [])))
            else throw "LIMEX: Unexpected character"
        else throw "LIMEX: Unexpected character"

/-- The tokenizer loop; fuel bounds the number of iterations.  Every
iteration that does not finish consumes at least one character, so
`input.length + 1` units suffice. -/
def tokLoop : Nat → List Char → Cat → List Frame → Except Err Token
  | 0, _, _, _ => throw "MODEL: out of fuel"
  | fuel + 1, rest, expected, fs => do
    match ← iter rest expected fs with
    | .done t => pure t
    | .next rest' exp' fs' => tokLoop fuel rest' exp' fs'

/-- The initial stack entry: the implicit root GROUP, closed by `"#"`. -/
def initFrame : Frame := ⟨.mk .OPERAND .GROUP "" [], "#".data⟩

/-- `Expression::tokenize`. -/
def tokenize (input : List Char) : Except Err Token :=
  tokLoop (input.length + 1) input .PREFIX [initFrame]

/-- `Expression::tokenize` on a `String`. -/
def tokenizeStr (input : String) : Except Err Token := tokenize input.data

/-! ## The abstract syntax tree (`enum class Type`, `class Node`) -/

/-- Node kinds (`enum class Type`). -/
inductive Ty where
  | literal | variable | collection | group | set | sequence
  | function_call | aggregation | index
  | negate | logical_not | logical_and | logical_or
  | add | subtract | multiply | divide | exponentiate | square | cube
  | less_than | less_or_equal | greater_than | greater_or_equal
  | equal_to | not_equal_to | element_of | not_element_of
  | if_ | _then_ | _else | if_then_else
  | assign | add_assign | subtract_assign | multiply_assign | divide_assign
deriving DecidableEq, Repr

mutual
/-- An AST node: kind plus operand list
(`std::vector<std::variant<double, size_t, Node>>`). -/
inductive Node where
  | mk (ty : Ty) (operands : List Operand)
deriving Repr

/-- One operand of a node: a `double` payload, a `size_t` index, or a child. -/
inductive Operand where
  | num (v : ℚ)
  | idx (i : Nat)
  | node (n : Node)
deriving Repr
end

def Node.ty : Node → Ty | .mk t _ => t
def Node.operands : Node → List Operand | .mk _ ops => ops

/-- `std::stod` on the numeric lexemes the tokenizer produces (digits and
dots): integer part, then fractional digits after the first dot; anything
after a second dot is ignored, as `stod` stops parsing there.  (On lexemes
that `stod` would reject this total model returns a junk value; no such
lexeme is exercised by a theorem.) -/
def stod (s : String) : ℚ :=
  let intPart := s.data.takeWhile Char.isDigit
  let rest := s.data.dropWhile Char.isDigit
  let fracPart :=
    match rest with
    | '.' :: r => r.takeWhile Char.isDigit
    | _ => []
  let intVal : ℚ := (intPart.foldl (fun a c => a * 10 + (c.toNat - '0'.toNat)) 0 : Nat)
  let fracVal : ℚ :=
    (fracPart.foldl (fun a c => a * 10 + (c.toNat - '0'.toNat)) 0 : Nat) /
      ((10 : ℚ) ^ fracPart.length)
  intVal + fracVal

/-- Entries of the `prefixTypes` map. -/
def prefixTypes : List (String × Ty) :=
  [("-", .negate), ("!", .logical_not), ("¬", .logical_not), ("if", .if_)]

/-- Lookup in `prefixTypes` (`std::unordered_map::at` throws on a missing
key). -/
def prefixTyOf (s : String) : Except Err Ty :=
  match prefixTypes.find? (fun p => p.1 == s) with
  | some p => .ok p.2
  | none => .error "MODEL: prefixTypes.at out of range"

/-- Entries of the `infixTypes` map. -/
def infixTypes : List (String × Ty) :=
  [("&&", .logical_and), ("∧", .logical_and), ("and", .logical_and),
   ("||", .logical_or), ("∨", .logical_or), ("or", .logical_or),
   ("+", .add), ("-", .subtract), ("*", .multiply), ("/", .divide),
   ("^", .exponentiate),
   ("<", .less_than), ("<=", .less_or_equal), ("≤", .less_or_equal),
   (">", .greater_than), (">=", .greater_or_equal), ("≥", .greater_or_equal),
   ("==", .equal_to), ("!=", .not_equal_to), ("≠", .not_equal_to),
   ("in", .element_of), ("∈", .element_of),
   ("not in", .not_element_of), ("∉", .not_element_of),
   ("then", ._then_), ("?", ._then_), ("else", ._else), (":", ._else),
   (":=", .assign), ("≔", .assign),
   ("+=", .add_assign), ("-=", .subtract_assign), ("*=", .multiply_assign),
   ("/=", .divide_assign)]

/-- Lookup in `infixTypes` (`std::unordered_map::at` throws on a missing
key). -/
def infixTyOf (s : String) : Except Err Ty :=
  match infixTypes.find? (fun p => p.1 == s) with
  | some p => .ok p.2
  | none => .error "MODEL: infixTypes.at out of range"

/-- Entries of the `postfixTypes` map. -/
def postfixTypes : List (String × Ty) := [("²", .square), ("³", .cube)]

/-- Lookup in `postfixTypes` (`std::unordered_map::at` throws on a missing
key). -/
def postfixTyOf (s : String) : Except Err Ty :=
  match postfixTypes.find? (fun p => p.1 == s) with
  | some p => .ok p.2
  | none => .error "MODEL: postfixTypes.at out of range"

/-- The `precedences` map (smaller binds tighter).  Types absent from the
C++ map never reach a lookup; they are given a junk value here. -/
def precOf : Ty → Nat
  | .group | .set | .function_call | .aggregation | .index => 1
  | .square | .cube | .exponentiate => 2
  | .negate | .logical_not => 3
  | .multiply | .divide | .logical_and => 4
  | .add | .subtract | .logical_or => 5
  | .if_ | ._then_ | ._else => 6
  | .less_than | .greater_than | .less_or_equal | .greater_or_equal
  | .equal_to | .not_equal_to | .element_of | .not_element_of => 7
  | .assign | .add_assign | .subtract_assign | .multiply_assign
  | .divide_assign => 8
  | _ => 99

/-- `(int)operatorType >= (int)Type::assign`: the assignment family is the
final block of the `Type` enumeration. -/
def isAssignTy : Ty → Bool
  | .assign | .add_assign | .subtract_assign | .multiply_assign
  | .divide_assign => true
  | _ => false

/-! ## Expression state and the handle's name table -/

/-- The name tables and target owned by an `Expression` while parsing. -/
structure St where
  vars : List String
  collections : List String
  target : Option String
deriving DecidableEq, Repr

/-- The empty initial state of a fresh `Expression`. -/
def st0 : St := ⟨[], [], none⟩

/-- `Expression::getIndex`: linear scan, appending the name when absent. -/
def getIndexReg (container : List String) (name : String) : Nat × List String :=
  match container.indexOf? name with
  | some i => (i, container)
  | none => (container.length, container ++ [name])

/-- `Handle::getIndex`: lookup of a callable name; unknown names throw. -/
def handleGetIndex (names : List String) (name : String) : Except Err Nat :=
  match names.indexOf? name with
  | some i => .ok i
  | none => .error "LIMEX: Unknown callable"

/-- The callable names of a freshly constructed `Handle<double>`, in the
order `Handle<double>::initialize` registers them. -/
def builtinNames : List String :=
  ["if_then_else", "n_ary_if", "abs", "pow", "sqrt", "cbrt", "sum", "avg",
   "count", "min", "max", "element_of", "not_element_of", "at"]

/-! ## The tree builder (`Expression::buildTree`) -/

/-- The combined effect of `applyOperator(operatorStack.top())` followed by
`operatorStack.pop()` at its two call sites: consumes the top operator
(and, for `_else`, also the `_then_` beneath it) and rewrites the node
stack. -/
def applyTop (ns : List Node) (ops : List Ty) : Except Err (List Node × List Ty) :=
  match ops with
  | [] => .error "MODEL: applyTop on empty operator stack"
  | op :: rest =>
    if op = ._else then
      match rest with
      | [] => .error "LIMEX: Insufficient operators for ternary operator"
      | top :: rest' =>
        if top ≠ ._then_ then .error "LIMEX: Wrong operators for ternary operator"
        else match ns with
        | else_result :: then_result :: condition :: ns' =>
          let then_result' := Node.mk .group then_result.operands
          let condition' :=
            if condition.ty = .if_ then Node.mk .group condition.operands
            else condition
          .ok (Node.mk .if_then_else
            [.node condition', .node then_result', .node else_result] :: ns', rest')
        | _ => .error "LIMEX: Insufficient operands for ternary operator"
    else if isAssignTy op then
      match ns with
      | right :: left :: ns' =>
        if left.ty ≠ .variable then .error "LIMEX: illegal target for assignment"
        else if op = .assign then
          .ok (Node.mk .assign [.node right] :: ns', rest)
        else
          .ok (Node.mk op [.node left, .node right] :: ns', rest)
      | _ => .error "LIMEX: Insufficient operands for assignment"
    else
      match ns with
      | right :: left :: ns' =>
        .ok (Node.mk op [.node left, .node right] :: ns', rest)
      | _ => .error "LIMEX: Insufficient operands for infix operator"

/-- `while (!operatorStack.empty()) { applyOperator(top); pop; }`.
Each `applyTop` removes at least one operator, so `ops.length` fuel
suffices. -/
def flushAux : Nat → List Node → List Ty → Except Err (List Node)
  | _, ns, [] => .ok ns
  | 0, _, _ :: _ => .error "MODEL: out of fuel"
  | fuel + 1, ns, op :: rest => do
    let (ns', ops') ← applyTop ns (op :: rest)
    flushAux fuel ns' ops'

/-- `while (!empty && precedences.at(top) <= precedences.at(incoming) &&
top != _then_) { applyOperator(top); pop; }`. -/
def popWhile : Nat → Nat → List Node → List Ty → Except Err (List Node × List Ty)
  | _, _, ns, [] => .ok (ns, [])
  | 0, _, _, _ :: _ => .error "MODEL: out of fuel"
  | fuel + 1, prec, ns, op :: rest =>
    if precOf op ≤ prec ∧ op ≠ ._then_ then do
      let (ns', ops') ← applyTop ns (op :: rest)
      popWhile fuel prec ns' ops'
    else .ok (ns, op :: rest)

/-- The `createNode` lambda of `Expression::buildTree`: builds a leaf or a
subtree for an OPERAND token.  `recurse` is the recursive `buildTree` call
(at one less unit of nesting fuel). -/
def createNode (hNames : List String)
    (recurse : St → Ty → Option Nat → List Token → Except Err (Node × St))
    (st : St) (t : Token) : Except Err (Node × St) :=
  match t.ttype with
  | .NUMBER => .ok (Node.mk .literal [.num (stod t.value)], st)
  | .VARIABLE =>
    let (i, vars') := getIndexReg st.vars t.value
    .ok (Node.mk .variable [.idx i], { st with vars := vars' })
  | .COLLECTION =>
    let (i, colls') := getIndexReg st.collections t.value
    .ok (Node.mk .collection [.idx i], { st with collections := colls' })
  | .GROUP => recurse st .group none t.children
  | .SET => recurse st .set none t.children
  | .SEQUENCE => recurse st .sequence none t.children
  | .FUNCTION_CALL => do
    let i ← handleGetIndex hNames t.value
    recurse st .function_call (some i) t.children
  | .AGGREGATION => do
    let i ← handleGetIndex hNames t.value
    recurse st .aggregation (some i) t.children
  | .INDEXED_VARIABLE =>
    -- the `C = std::vector<T>` instantiation: an `index` node
    let (i, colls') := getIndexReg st.collections t.value
    recurse { st with collections := colls' } .index (some i) t.children
  | _ => .error "LIMEX: Unexpected token type for operand"

/-- The token loop of `Expression::buildTree`.  `first` is `tokens[0]` of
the current invocation (for assignment targets), `prev` the token at
`i - 1`, `acc` the finished comma-separated segments. -/
def goBT (hNames : List String)
    (recurse : St → Ty → Option Nat → List Token → Except Err (Node × St)) :
    St → Option Token → Option Token → Nat → List Token →
    List Operand → List Node → List Ty → Except Err (List Operand × St)
  | st, _, _, _, [], acc, ns, ops => do
    let ns' ← flushAux ops.length ns ops
    match ns' with
    | [n] => .ok (acc ++ [.node n], st)
    | _ => .error "LIMEX: Invalid expression - unmatched operators or operands"
  | st, first, prev, i, t :: rest, acc, ns, ops =>
    let first' := if i = 0 then some t else first
    if t.category = .PREFIX ∧ t.ttype = .GROUP then do
      -- keyword `if` starts a group
      let (node, st') ← recurse st .if_ none t.children
      goBT hNames recurse st' first' (some t) (i + 1) rest acc (node :: ns) ops
    else if t.category = .INFIX ∧ t.ttype = .GROUP then do
      -- `?` and keyword `then` start a group
      let (node, st') ← recurse st ._then_ none t.children
      goBT hNames recurse st' first' (some t) (i + 1) rest acc (node :: ns)
        (._then_ :: ops)
    else if t.category = .OPERAND then do
      let (node, st') ← createNode hNames recurse st t
      let node ←
        match rest.head? with
        | some nxt =>
          if nxt.category = .POSTFIX then do
            let pty ← postfixTyOf nxt.value
            pure (Node.mk pty [.node node])
          else pure node
        | none => pure node
      let node ←
        match prev with
        | some pv =>
          if pv.category = .PREFIX then do
            let pty ← prefixTyOf pv.value
            pure (Node.mk pty [.node node])
          else pure node
        | none => pure node
      goBT hNames recurse st' first' (some t) (i + 1) rest acc (node :: ns) ops
    else if t.ttype = .SEPARATOR then do
      -- flush the stacks and emit the finished segment
      let ns' ← flushAux ops.length ns ops
      match ns' with
      | [n] => goBT hNames recurse st first' (some t) (i + 1) rest (acc ++ [.node n]) [] []
      | _ => .error "LIMEX: Invalid expression - unmatched operators or operands"
    else if t.category = .INFIX then do
      let opTy ← infixTyOf t.value
      let st' ←
        if isAssignTy opTy then
          if i ≠ 1 then
            .error "LIMEX: Assignment must start with a variable followed by the assignment operator"
          else
            let st₁ := if opTy = .assign then { st with vars := [] } else st
            .ok { st₁ with target := some ((first'.getD t).value) }
        else .ok st
      let (ns', ops') ← popWhile ops.length (precOf opTy) ns ops
      goBT hNames recurse st' first' (some t) (i + 1) rest acc ns' (opTy :: ops')
    else
      -- prefix and postfix operator tokens are skipped here
      goBT hNames recurse st first' (some t) (i + 1) rest acc ns ops

/-- `Expression::buildTree`, with nesting fuel: one unit is spent per level
of nesting of the token tree. -/
def buildTree : Nat → List String → St → Ty → Option Nat → List Token →
    Except Err (Node × St)
  | 0, _, _, _, _, _ => .error "MODEL: out of fuel"
  | fuel + 1, hNames, st, ty, idx, tokens => do
    let (acc, st') ← goBT hNames (buildTree fuel hNames) st none none 0 tokens [] [] []
    let lead : List Operand := match idx with | some i => [.idx i] | none => []
    .ok (Node.mk ty (lead ++ acc), st')

/-- `Expression::parse` for an expression constructed with a fresh
`Handle<double>`: tokenize, then build the root group.  The nesting depth of
the token tree is below the input length, so `length + 1` fuel suffices. -/
def parseExpr (input : String) : Except Err (Node × St) := do
  let root ← tokenizeStr input
  buildTree (input.length + 1) builtinNames st0 .group none root.children

/-! ## The built-in callables (`Handle<double>::initialize`) -/

/-- The positions of the `Expression::BUILTIN` enumeration constants. -/
inductive BUILTIN where
  | IF_THEN_ELSE | N_ARY_IF | ABS | POW | SQRT | CBRT | SUM | AVG | COUNT
  | MIN | MAX | ELEMENT_OF | NOT_ELEMENT_OF | AT | BUILTINS
deriving DecidableEq, Repr

/-- The integer value of a `BUILTIN` enumeration constant. -/
def BUILTIN.toIdx : BUILTIN → Nat
  | .IF_THEN_ELSE => 0 | .N_ARY_IF => 1 | .ABS => 2 | .POW => 3 | .SQRT => 4
  | .CBRT => 5 | .SUM => 6 | .AVG => 7 | .COUNT => 8 | .MIN => 9 | .MAX => 10
  | .ELEMENT_OF => 11 | .NOT_ELEMENT_OF => 12 | .AT => 13 | .BUILTINS => 14

/-- `std::pow` on the rational model: exact for integer exponents with a
nonzero base, which covers every use below; non-integer exponents (whose
`double` result is irrational) are given a junk value. -/
def powModel (x y : ℚ) : ℚ := if y.den = 1 then x ^ y.num else 0

/-- `std::sqrt`, not evaluated by any theorem: modelled abstractly. -/
def sqrtModel (_ : ℚ) : ℚ := 0

/-- `std::cbrt`, not evaluated by any theorem: modelled abstractly. -/
def cbrtModel (_ : ℚ) : ℚ := 0

/-- One registered callable implementation. -/
abbrev Impl := List ℚ → Except Err ℚ

/-- The implementations registered by `Handle<double>::initialize`, in
registration order (truthiness of a `double` argument is `≠ 0`). -/
def builtinImpls : List Impl :=
  [fun args =>
    if args.length ≠ 3 then
      .error "LIMEX: if_then_else() requires exactly two arguments"
    else .ok (if args.getD 0 0 ≠ 0 then args.getD 1 0 else args.getD 2 0),
   fun args =>
    if args.length = 0 ∨ args.length % 2 ≠ 1 then
      .error "LIMEX: n_ary_if() requires an unconditional argument"
    else
      .ok (match (List.range (args.length / 2)).find?
              (fun i => args.getD (2 * i) 0 ≠ 0) with
           | some i => args.getD (2 * i + 1) 0
           | none => args.getLastD 0),
   fun args =>
    if args.length ≠ 1 then .error "LIMEX: abs() requires exactly one argument"
    else .ok (if 0 ≤ args.getD 0 0 then args.getD 0 0 else -(args.getD 0 0)),
   fun args =>
    if args.length ≠ 2 then .error "LIMEX: pow() requires exactly two arguments"
    else .ok (powModel (args.getD 0 0) (args.getD 1 0)),
   fun args =>
    if args.length ≠ 1 then .error "LIMEX: sqrt() requires exactly one argument"
    else .ok (sqrtModel (args.getD 0 0)),
   fun args =>
    if args.length ≠ 1 then .error "LIMEX: cbrt() requires exactly one argument"
    else .ok (cbrtModel (args.getD 0 0)),
   fun args => .ok (args.foldl (· + ·) 0),
   fun args =>
    if args.length = 0 then .error "LIMEX: avg{} requires at least one argument"
    else .ok (args.foldl (· + ·) 0 / args.length),
   fun args => .ok args.length,
   fun args =>
    if args.length = 0 then .error "LIMEX: min{} requires at least one argument"
    else .ok (args.foldl min (args.getD 0 0)),
   fun args =>
    if args.length = 0 then .error "LIMEX: max{} requires at least one argument"
    else .ok (args.foldl max (args.getD 0 0)),
   fun args =>
    if args.length = 0 then .error "LIMEX: ∈ {...} requires at least one argument"
    else .ok (if args.tail.any (fun a => a = args.getD 0 0) then 1 else 0),
   fun args =>
    if args.length = 0 then .error "LIMEX: ∉ {...} requires at least one argument"
    else .ok (if args.tail.any (fun a => a = args.getD 0 0) then 0 else 1),
   fun _ => .error "LIMEX: at() not relevant for handle of type double"]

/-- The callable registry (`class Handle`): parallel name/implementation
lists. -/
structure Handle where
  names : List String
  implementations : List Impl

/-- `Handle::add`: register a callable, rejecting duplicate names. -/
def Handle.add (h : Handle) (name : String) (impl : Impl) : Except Err Handle :=
  if h.names.contains name then
    .error "LIMEX: Callable with name already exists"
  else .ok ⟨h.names ++ [name], h.implementations ++ [impl]⟩

/-- `Handle<double>::initialize`, run by the `Handle` constructor: the
sequence of `add` calls for the built-in callables. -/
def handleInit : Except Err Handle :=
  (builtinNames.zip builtinImpls).foldlM
    (fun h p => h.add p.1 p.2) (⟨[], []⟩ : Handle)

/-! ## The evaluator (`Node::evaluate`) -/

/-- Context for evaluation: the handle's tables and the number of registered
collection names of the owning expression. -/
structure Ctx where
  names : List String
  impls : List Impl
  collCount : Nat

/-- `std::get<Node>` on an operand: anything else is a
`std::bad_variant_access`. -/
def asNode : Operand → Except Err Node
  | .node n => .ok n
  | _ => .error "MODEL: bad variant access"

/-- `(size_t)value`: truncation toward zero for a nonnegative value; a
negative or too-large value is undefined behaviour in C++ and never arises
in the theorems below. -/
def toSizeT (q : ℚ) : Nat := if q < 0 then 0 else (q.num.toNat / q.den) % 2 ^ 64

/-- `(size_t)value - 1`: the 1-based-to-0-based shift with `size_t`
wrap-around (so a value of `0` becomes `2^64 - 1`). -/
def szIdx (q : ℚ) : Nat := (toSizeT q + (2 ^ 64 - 1)) % 2 ^ 64

/-- `Node::evaluate` with nesting fuel (one unit per tree level).
`vals`/`colls` are the positional variable and collection values. -/
def evaluate : Nat → Ctx → Node → List ℚ → List (List ℚ) → Except Err ℚ
  | 0, _, _, _, _ => .error "MODEL: out of fuel"
  | fuel + 1, ctx, .mk ty ops, vals, colls =>
    let ev : Operand → Except Err ℚ := fun o => do
      evaluate fuel ctx (← asNode o) vals colls
    match ty with
    | .group => ev (ops.getD 0 (.num 0))
    | .set => .error "LIMEX: Sets cannot be evaluated"
    | .sequence => .error "LIMEX: Sequences cannot be evaluated"
    | .literal =>
      match ops.getD 0 (.idx 0) with
      | .num v => .ok v
      | _ => .error "MODEL: bad variant access"
    | .variable =>
      match ops.getD 0 (.num 0) with
      | .idx i =>
        -- out-of-range access into `variableValues` is UB in the C++
        match vals.get? i with
        | some v => .ok v
        | none => .error "MODEL: variable value out of range"
      | _ => .error "MODEL: bad variant access"
    | .collection => .error "LIMEX: Collections cannot be evaluated"
    | .negate => do pure (-(← ev (ops.getD 0 (.num 0))))
    | .logical_not => do
      let v ← ev (ops.getD 0 (.num 0))
      pure (if v = 0 then 1 else 0)
    | .logical_and => do
      let l ← ev (ops.getD 0 (.num 0))
      let r ← ev (ops.getD 1 (.num 0))
      pure (if l ≠ 0 ∧ r ≠ 0 then 1 else 0)
    | .logical_or => do
      let l ← ev (ops.getD 0 (.num 0))
      let r ← ev (ops.getD 1 (.num 0))
      pure (if l ≠ 0 ∨ r ≠ 0 then 1 else 0)
    | .add => do pure ((← ev (ops.getD 0 (.num 0))) + (← ev (ops.getD 1 (.num 0))))
    | .subtract => do pure ((← ev (ops.getD 0 (.num 0))) - (← ev (ops.getD 1 (.num 0))))
    | .multiply => do pure ((← ev (ops.getD 0 (.num 0))) * (← ev (ops.getD 1 (.num 0))))
    | .divide => do
      let l ← ev (ops.getD 0 (.num 0))
      let r ← ev (ops.getD 1 (.num 0))
      -- `T = double` is arithmetic: division by zero is checked
      if r = 0 then .error "LIMEX: Division by zero"
      else pure (l / r)
    | .square => do
      let v ← ev (ops.getD 0 (.num 0))
      pure (v * v)
    | .cube => do
      let v ← ev (ops.getD 0 (.num 0))
      pure (v * v * v)
    | .exponentiate => do
      let index := BUILTIN.POW.toIdx
      if ctx.names.length ≤ index then
        .error "LIMEX: Callable index out of range"
      else do
        let arguments ← ops.mapM ev
        match ctx.impls.get? index with
        | some impl => impl arguments
        | none => .error "MODEL: implementation missing"
    | .function_call | .aggregation =>
      match ops.getD 0 (.num 0) with
      | .idx index =>
        if ctx.names.length ≤ index then
          .error "LIMEX: Callable index out of range"
        else if index = BUILTIN.AT.toIdx then
          -- `C = std::vector<T>` instantiation
          .error "LIMEX: unexpected use of built-in 'at' for double"
        else
          -- `operands.size() == 2`, the second operand holding a bare
          -- `collection` node: pass the stored values directly
          match ops with
          | [_, .node (.mk .collection cops)] =>
            (match cops.getD 0 (.num 0) with
             | .idx c =>
               (match colls.get? c with
                | some l =>
                  (match ctx.impls.get? index with
                   | some impl => impl l
                   | none => .error "MODEL: implementation missing")
                | none => .error "MODEL: collection value out of range")
             | _ => .error "MODEL: bad variant access")
          | _ => do
            let arguments ← ops.tail.mapM ev
            match ctx.impls.get? index with
            | some impl => impl arguments
            | none => .error "MODEL: implementation missing"
      | _ => .error "MODEL: bad variant access"
    | .index =>
      match ops.getD 0 (.num 0) with
      | .idx collection =>
        if ctx.collCount ≤ collection then
          .error "LIMEX: Illegal reference to collection"
        else if colls.length ≤ collection then
          .error "LIMEX: Insufficient collections provided"
        else
          match ops.getD 1 (.num 0) with
          | .node n =>
            let cvals := colls.getD collection []
            if n.ty = .literal then
              match n.operands.getD 0 (.idx 0) with
              | .num value =>
                let index := szIdx value
                if cvals.length ≤ index then
                  .error "LIMEX: Illegal index for collection"
                else .ok (cvals.getD index 0)
              | _ => .error "MODEL: bad variant access"
            else do
              let value ← evaluate fuel ctx n vals colls
              -- `T = double` is arithmetic: cast the value to an index
              let index := szIdx value
              if cvals.length ≤ index then
                .error "LIMEX: Illegal index for collection"
              else .ok (cvals.getD index 0)
          | _ => .error "LIMEX: Unexpected operand"
      | _ => .error "MODEL: bad variant access"
    | .element_of => do
      let index := BUILTIN.ELEMENT_OF.toIdx
      if ctx.names.length ≤ index then
        .error "LIMEX: Callable index out of range"
      else do
        let lhs ← ev (ops.getD 0 (.num 0))
        let set ← asNode (ops.getD 1 (.num 0))
        let elems ← set.operands.mapM ev
        match ctx.impls.get? index with
        | some impl => impl (lhs :: elems)
        | none => .error "MODEL: implementation missing"
    | .not_element_of => do
      let index := BUILTIN.NOT_ELEMENT_OF.toIdx
      if ctx.names.length ≤ index then
        .error "LIMEX: Callable index out of range"
      else do
        let lhs ← ev (ops.getD 0 (.num 0))
        let set ← asNode (ops.getD 1 (.num 0))
        let elems ← set.operands.mapM ev
        match ctx.impls.get? index with
        | some impl => impl (lhs :: elems)
        | none => .error "MODEL: implementation missing"
    | .if_then_else => do
      let index := BUILTIN.IF_THEN_ELSE.toIdx
      if ctx.names.length ≤ index then
        .error "LIMEX: Callable index out of range"
      else do
        let arguments ← ops.mapM ev
        match ctx.impls.get? index with
        | some impl => impl arguments
        | none => .error "MODEL: implementation missing"
    | .less_than => do
      let l ← ev (ops.getD 0 (.num 0))
      let r ← ev (ops.getD 1 (.num 0))
      pure (if l < r then 1 else 0)
    | .less_or_equal => do
      let l ← ev (ops.getD 0 (.num 0))
      let r ← ev (ops.getD 1 (.num 0))
      pure (if l ≤ r then 1 else 0)
    | .greater_than => do
      let l ← ev (ops.getD 0 (.num 0))
      let r ← ev (ops.getD 1 (.num 0))
      pure (if r < l then 1 else 0)
    | .greater_or_equal => do
      let l ← ev (ops.getD 0 (.num 0))
      let r ← ev (ops.getD 1 (.num 0))
      pure (if r ≤ l then 1 else 0)
    | .equal_to => do
      let l ← ev (ops.getD 0 (.num 0))
      let r ← ev (ops.getD 1 (.num 0))
      pure (if l = r then 1 else 0)
    | .not_equal_to => do
      let l ← ev (ops.getD 0 (.num 0))
      let r ← ev (ops.getD 1 (.num 0))
      pure (if l ≠ r then 1 else 0)
    | .assign => ev (ops.getD 0 (.num 0))
    | .add_assign => do
      pure ((← ev (ops.getD 0 (.num 0))) + (← ev (ops.getD 1 (.num 0))))
    | .subtract_assign => do
      pure ((← ev (ops.getD 0 (.num 0))) - (← ev (ops.getD 1 (.num 0))))
    | .multiply_assign => do
      pure ((← ev (ops.getD 0 (.num 0))) * (← ev (ops.getD 1 (.num 0))))
    | .divide_assign => do
      -- unlike `divide`, no division-by-zero check; the value for a zero
      -- divisor is ±inf/NaN for `double`, outside the rational model
      pure ((← ev (ops.getD 0 (.num 0))) / (← ev (ops.getD 1 (.num 0))))
    | _ => .error "LIMEX: Unsupported type in evaluate"

/-- `Expression::evaluate` for an expression over a fresh `Handle<double>`:
parse the input and evaluate the root. -/
def evalString (input : String) (vals : List ℚ) (colls : List (List ℚ)) :
    Except Err ℚ := do
  let (root, st) ← parseExpr input
  evaluate (input.length + 4) ⟨builtinNames, builtinImpls, st.collections.length⟩
    root vals colls

/-! ## Which variable names a token tree reads

The name tables are populated by `createNode` during tree building: a
token read as a `variable` operand registers its name.  `readsTok` collects,
in order, the names of exactly those tokens that `buildTree` turns into
`variable` nodes (nested tokens are walked for the token types whose
children `buildTree` recurses into). -/

/-- Lexemes of the assignment-operator family. -/
def isAssignStr (v : String) : Bool :=
  v = ":=" || v = "≔" || v = "+=" || v = "-=" || v = "*=" || v = "/="

mutual
/-- No token of this tree carries an assignment-operator lexeme. -/
def noAssignTok : Token → Bool
  | .mk _ _ v ch => !(isAssignStr v) && noAssignList ch
/-- No token of these trees carries an assignment-operator lexeme. -/
def noAssignList : List Token → Bool
  | [] => true
  | t :: ts => noAssignTok t && noAssignList ts
end

mutual
/-- The variable names read by a token tree, in registration order. -/
def readsTok : Token → List String
  | .mk cat ty v ch =>
    match cat, ty with
    | .OPERAND, .VARIABLE => [v]
    | .PREFIX, .GROUP => readsList ch
    | .INFIX, .GROUP => readsList ch
    | .OPERAND, .GROUP => readsList ch
    | .OPERAND, .SET => readsList ch
    | .OPERAND, .SEQUENCE => readsList ch
    | .OPERAND, .FUNCTION_CALL => readsList ch
    | .OPERAND, .AGGREGATION => readsList ch
    | .OPERAND, .INDEXED_VARIABLE => readsList ch
    | _, _ => []
/-- The variable names read by a token forest, in registration order. -/
def readsList : List Token → List String
  | [] => []
  | t :: ts => readsTok t ++ readsList ts
end

/-- How a tree-building step relates the old and new expression state when
no assignment operator occurs: the target is untouched and the variable
table grows by exactly the names read. -/
def StSpec (st st' : St) (reads : List String) : Prop :=
  st'.target = st.target ∧
    ∀ name, name ∈ st'.vars ↔ name ∈ st.vars ∨ name ∈ reads

theorem StSpec.refl (st : St) : StSpec st st [] := by
  constructor
  · rfl
  · intro name; simp

theorem StSpec.comp {st st₁ st₂ : St} {r1 r2 : List String}
    (h1 : StSpec st st₁ r1) (h2 : StSpec st₁ st₂ r2) :
    StSpec st st₂ (r1 ++ r2) := by
  obtain ⟨ht1, hv1⟩ := h1
  obtain ⟨ht2, hv2⟩ := h2
  refine ⟨ht2.trans ht1, fun name => ?_⟩
  rw [hv2, hv1, List.mem_append]
  tauto

theorem indexOf?_mem {l : List String} {n : String} {i : Nat}
    (h : l.indexOf? n = some i) : n ∈ l := by
  induction l generalizing i with
  | nil => simp [List.indexOf?_nil] at h
  | cons a as ih =>
    rw [List.indexOf?_cons] at h
    by_cases ha : a = n
    · simp [ha]
    · simp only [beq_iff_eq, ha, if_false] at h
      cases hi : as.indexOf? n with
      | some j => exact List.mem_cons_of_mem a (ih hi)
      | none => rw [hi] at h; simp at h

theorem getIndexReg_mem (l : List String) (n name : String) :
    name ∈ (getIndexReg l n).2 ↔ name ∈ l ∨ name = n := by
  unfold getIndexReg
  cases h : l.indexOf? n with
  | some i =>
    simp only
    constructor
    · exact fun hm => Or.inl hm
    · rintro (hm | rfl)
      · exact hm
      · exact indexOf?_mem h
  | none => simp

theorem infixTyOf_not_assign {v : String} {ty : Ty} (hv : isAssignStr v = false)
    (h : infixTyOf v = .ok ty) : isAssignTy ty = false := by
  rw [infixTyOf] at h
  cases hf : infixTypes.find? (fun p => p.1 == v) with
  | none => rw [hf] at h; exact Except.noConfusion h
  | some p =>
    rw [hf] at h
    cases h
    have hmem := List.mem_of_find?_eq_some hf
    have hpv : p.1 = v := by simpa using List.find?_some hf
    by_contra hass
    rw [Bool.not_eq_false] at hass
    have hkey : ∀ q ∈ infixTypes, isAssignTy q.2 = true → isAssignStr q.1 = true := by
      decide
    have hstr := hkey p hmem hass
    rw [hpv] at hstr
    rw [hstr] at hv
    exact Bool.noConfusion hv

theorem readsTok_of_not_group {cat : Cat} {tt : TType} {v : String}
    {ch : List Token} (h1 : cat ≠ .OPERAND) (h2 : tt ≠ .GROUP) :
    readsTok (.mk cat tt v ch) = [] := by
  cases cat <;> cases tt <;>
    first
      | exact absurd rfl h1
      | exact absurd rfl h2
      | rfl

/-- The specification of a recursive tree-building call: on assignment-free
token trees it preserves the target and grows the variable table by the
names read. -/
def RecSpec (recurse : St → Ty → Option Nat → List Token → Except Err (Node × St)) :
    Prop :=
  ∀ st ty idx toks res, noAssignList toks = true → recurse st ty idx toks = .ok res →
    StSpec st res.2 (readsList toks)

theorem createNode_spec {hN : List String} {recurse} (hrec : RecSpec recurse)
    {st : St} {t : Token} {res : Node × St}
    (hcat : t.category = .OPERAND) (hna : noAssignTok t = true)
    (hok : createNode hN recurse st t = .ok res) : StSpec st res.2 (readsTok t) := by
  obtain ⟨cat, ty, v, ch⟩ := t
  simp only [Token.category] at hcat
  subst hcat
  rw [noAssignTok] at hna
  simp only [Bool.and_eq_true] at hna
  cases ty with
  | NUMBER =>
    simp only [createNode, Token.ttype] at hok
    cases hok
    simp only [readsTok]
    exact StSpec.refl st
  | VARIABLE =>
    simp only [createNode, Token.ttype, Token.value] at hok
    cases hok
    refine ⟨rfl, fun name => ?_⟩
    simp only [readsTok, List.mem_singleton]
    exact getIndexReg_mem st.vars v name
  | COLLECTION =>
    simp only [createNode, Token.ttype, Token.value] at hok
    cases hok
    refine ⟨rfl, fun name => ?_⟩
    simp [readsTok]
  | GROUP =>
    simp only [createNode, Token.ttype, Token.children] at hok
    simpa only [readsTok] using hrec _ _ _ _ _ hna.2 hok
  | SET =>
    simp only [createNode, Token.ttype, Token.children] at hok
    simpa only [readsTok] using hrec _ _ _ _ _ hna.2 hok
  | SEQUENCE =>
    simp only [createNode, Token.ttype, Token.children] at hok
    simpa only [readsTok] using hrec _ _ _ _ _ hna.2 hok
  | FUNCTION_CALL =>
    simp only [createNode, Token.ttype, Token.value, Token.children] at hok
    cases hidx : handleGetIndex hN v with
    | error e => rw [hidx] at hok; contradiction
    | ok i =>
      rw [hidx] at hok
      simp only [bind, Except.bind] at hok
      simpa only [readsTok] using hrec _ _ _ _ _ hna.2 hok
  | AGGREGATION =>
    simp only [createNode, Token.ttype, Token.value, Token.children] at hok
    cases hidx : handleGetIndex hN v with
    | error e => rw [hidx] at hok; contradiction
    | ok i =>
      rw [hidx] at hok
      simp only [bind, Except.bind] at hok
      simpa only [readsTok] using hrec _ _ _ _ _ hna.2 hok
  | INDEXED_VARIABLE =>
    simp only [createNode, Token.ttype, Token.value, Token.children] at hok
    have h1 := hrec _ _ _ _ _ hna.2 hok
    refine ⟨h1.1, fun name => ?_⟩
    rw [h1.2 name]
    simp [readsTok]
  | OPERATOR => exact (Except.noConfusion hok)
  | SEPARATOR => exact (Except.noConfusion hok)



theorem goBT_spec {hN : List String} {recurse} (hrec : RecSpec recurse) :
    ∀ (toks : List Token) (st : St) (first prev : Option Token) (i : Nat)
      (acc : List Operand) (ns : List Node) (ops : List Ty)
      (res : List Operand × St),
      noAssignList toks = true →
      goBT hN recurse st first prev i toks acc ns ops = .ok res →
      StSpec st res.2 (readsList toks) := by
  intro toks
  induction toks with
  | nil =>
    intro st first prev i acc ns ops res hna hok
    rw [goBT] at hok
    cases hflush : flushAux ops.length ns ops with
    | error e => rw [hflush] at hok; exact (Except.noConfusion hok)
    | ok ns' =>
      rw [hflush] at hok
      simp only [bind, Except.bind] at hok
      match ns', hok with
      | [n], hok =>
        cases hok
        simpa only [readsList] using StSpec.refl st
  | cons t ts ih =>
    intro st first prev i acc ns ops res hna hok
    rw [noAssignList, Bool.and_eq_true] at hna
    rw [goBT] at hok
    by_cases hb1 : t.category = .PREFIX ∧ t.ttype = .GROUP
    · rw [if_pos hb1] at hok
      simp only [bind, Except.bind] at hok
      cases hr : recurse st .if_ none t.children with
      | error e => rw [hr] at hok; exact (Except.noConfusion hok)
      | ok p =>
        rw [hr] at hok
        have hs1 : StSpec st p.2 (readsTok t) := by
          obtain ⟨cat, tt, v, ch⟩ := t
          obtain ⟨hc, htt⟩ := hb1
          simp only [Token.category] at hc
          simp only [Token.ttype] at htt
          subst hc; subst htt
          rw [noAssignTok, Bool.and_eq_true] at hna
          simpa only [readsTok] using hrec _ _ _ _ _ hna.1.2 (by simpa using hr)
        have hs2 := ih p.2 _ _ _ _ _ _ _ hna.2 hok
        simpa only [readsList] using hs1.comp hs2
    · rw [if_neg hb1] at hok
      by_cases hb2 : t.category = .INFIX ∧ t.ttype = .GROUP
      · rw [if_pos hb2] at hok
        simp only [bind, Except.bind] at hok
        cases hr : recurse st ._then_ none t.children with
        | error e => rw [hr] at hok; exact (Except.noConfusion hok)
        | ok p =>
          rw [hr] at hok
          have hs1 : StSpec st p.2 (readsTok t) := by
            obtain ⟨cat, tt, v, ch⟩ := t
            obtain ⟨hc, htt⟩ := hb2
            simp only [Token.category] at hc
            simp only [Token.ttype] at htt
            subst hc; subst htt
            rw [noAssignTok, Bool.and_eq_true] at hna
            simpa only [readsTok] using hrec _ _ _ _ _ hna.1.2 (by simpa using hr)
          have hs2 := ih p.2 _ _ _ _ _ _ _ hna.2 hok
          simpa only [readsList] using hs1.comp hs2
      · rw [if_neg hb2] at hok
        by_cases hb3 : t.category = .OPERAND
        · rw [if_pos hb3] at hok
          cases hc : createNode hN recurse st t with
          | error e =>
            simp only [hc, bind, Except.bind] at hok
            exact (Except.noConfusion hok)
          | ok p =>
            simp only [hc, bind, Except.bind, pure, Except.pure] at hok
            have hs1 : StSpec st p.2 (readsTok t) :=
              createNode_spec hrec hb3 hna.1 hc
            repeat' split at hok
            all_goals
              first
                | exact (Except.noConfusion hok)
                | (have hs2 := ih p.2 _ _ _ _ _ _ _ hna.2 hok
                   simpa only [readsList] using hs1.comp hs2)
        · rw [if_neg hb3] at hok
          by_cases hb4 : t.ttype = .SEPARATOR
          · rw [if_pos hb4] at hok
            simp only [bind, Except.bind] at hok
            cases hflush : flushAux ops.length ns ops with
            | error e => rw [hflush] at hok; exact (Except.noConfusion hok)
            | ok ns' =>
              rw [hflush] at hok
              match ns', hok with
              | [n], hok =>
                have hs2 := ih st _ _ _ _ _ _ _ hna.2 hok
                have h0 : readsTok t = [] := by
                  obtain ⟨cat, tt, v, ch⟩ := t
                  exact readsTok_of_not_group
                    (fun hcat => hb3 (by simpa using hcat))
                    (fun htt => by
                      simp only [Token.ttype] at hb4
                      rw [htt] at hb4
                      exact absurd hb4 (by simp))
                rw [readsList, h0, List.nil_append]
                exact hs2
          · rw [if_neg hb4] at hok
            by_cases hb5 : t.category = .INFIX
            · rw [if_pos hb5] at hok
              cases hty : infixTyOf t.value with
              | error e =>
                simp only [hty, bind, Except.bind] at hok
                exact (Except.noConfusion hok)
              | ok opTy =>
                simp only [hty, bind, Except.bind] at hok
                have hna1 : isAssignStr t.value = false := by
                  rcases hna with ⟨hna1, hna2⟩
                  obtain ⟨cat, tt, v, ch⟩ := t
                  rw [noAssignTok, Bool.and_eq_true] at hna1
                  have := hna1.1
                  simpa using this
                have hassf : isAssignTy opTy = false := infixTyOf_not_assign hna1 hty
                have hnass : ¬(isAssignTy opTy = true) := by simp [hassf]
                rw [if_neg hnass] at hok
                cases hpw : popWhile ops.length (precOf opTy) ns ops with
                | error e =>
                  simp only [hpw, bind, Except.bind] at hok
                  exact (Except.noConfusion hok)
                | ok q =>
                  simp only [hpw, bind, Except.bind] at hok
                  have hs2 := ih st _ _ _ _ _ _ _ hna.2 hok
                  have h0 : readsTok t = [] := by
                    obtain ⟨cat, tt, v, ch⟩ := t
                    refine readsTok_of_not_group
                      (fun hcat => hb3 (by simpa using hcat)) (fun htt => ?_)
                    simp only [Token.category] at hb5
                    simp only [Token.ttype] at htt
                    exact hb2 (by simpa using ⟨hb5, htt⟩)
                  rw [readsList, h0, List.nil_append]
                  exact hs2
            · rw [if_neg hb5] at hok
              have hs2 := ih st _ _ _ _ _ _ _ hna.2 hok
              have h0 : readsTok t = [] := by
                obtain ⟨cat, tt, v, ch⟩ := t
                simp only [Token.category, Token.ttype] at hb1 hb3 hb5
                cases cat <;> cases tt <;>
                  first
                    | rfl
                    | exact absurd rfl hb3
                    | exact absurd rfl hb5
                    | simp at hb1
              rw [readsList, h0, List.nil_append]
              exact hs2



theorem buildTree_spec (hN : List String) :
    ∀ (fuel : Nat) (st : St) (ty : Ty) (idx : Option Nat) (toks : List Token)
      (res : Node × St),
      noAssignList toks = true →
      buildTree fuel hN st ty idx toks = .ok res →
      StSpec st res.2 (readsList toks) := by
  intro fuel
  induction fuel with
  | zero =>
    intro st ty idx toks res hna hok
    exact (Except.noConfusion hok)
  | succ f ihf =>
    intro st ty idx toks res hna hok
    rw [buildTree.eq_def] at hok
    cases hgo : goBT hN (buildTree f hN) st none none 0 toks [] [] [] with
    | error e =>
      simp only [hgo, bind, Except.bind] at hok
      exact (Except.noConfusion hok)
    | ok p =>
      simp only [hgo, bind, Except.bind] at hok
      cases hok
      exact goBT_spec (fun st' ty' idx' toks' res' => ihf st' ty' idx' toks' res')
        toks st none none 0 [] [] [] p hna hgo

theorem buildTree_assign_step (fuel : Nat) (hN : List String) (v : String)
    (rest : List Token) :
    buildTree (fuel + 1) hN st0 .group none
      (Token.mk .OPERAND .VARIABLE v [] :: Token.mk .INFIX .OPERATOR ":=" [] :: rest)
    = (do
        let (acc, st') ← goBT hN (buildTree fuel hN) ⟨[], [], some v⟩
          (some (Token.mk .OPERAND .VARIABLE v []))
          (some (Token.mk .INFIX .OPERATOR ":=" [])) 2 rest []
          [Node.mk .variable [.idx 0]] [Ty.assign]
        Except.ok (Node.mk .group acc, st')) := rfl

theorem c3_amended_aux :
    ∀ (fuel : Nat) (v : String) (rest : List Token) (n : Node) (st' : St),
      noAssignList rest = true →
      buildTree fuel builtinNames st0 .group none
        (Token.mk .OPERAND .VARIABLE v [] :: Token.mk .INFIX .OPERATOR ":=" [] :: rest)
        = .ok (n, st') →
      st'.target = some v ∧ (v ∈ st'.vars ↔ v ∈ readsList rest) := by
  intro fuel v rest n st' hna hok
  cases fuel with
  | zero => exact (Except.noConfusion hok)
  | succ f =>
    rw [buildTree_assign_step] at hok
    cases hgo : goBT builtinNames (buildTree f builtinNames) ⟨[], [], some v⟩
        (some (Token.mk .OPERAND .VARIABLE v []))
        (some (Token.mk .INFIX .OPERATOR ":=" [])) 2 rest []
        [Node.mk .variable [.idx 0]] [Ty.assign] with
    | error e =>
      simp only [hgo, bind, Except.bind] at hok
      exact (Except.noConfusion hok)
    | ok p =>
      simp only [hgo, bind, Except.bind] at hok
      cases hok
      have hs := goBT_spec
        (fun st₁ ty₁ idx₁ toks₁ res₁ => buildTree_spec builtinNames f st₁ ty₁ idx₁ toks₁ res₁)
        rest ⟨[], [], some v⟩ _ _ 2 [] _ _ p hna hgo
      refine ⟨hs.1, ?_⟩
      rw [hs.2 v]
      simp



theorem goBT_acc_grows {hN : List String} {recurse} :
    ∀ (toks : List Token) (st : St) (first prev : Option Token) (i : Nat)
      (acc : List Operand) (ns : List Node) (ops : List Ty)
      (res : List Operand × St),
      goBT hN recurse st first prev i toks acc ns ops = .ok res →
      acc.length < res.1.length := by
  intro toks
  induction toks with
  | nil =>
    intro st first prev i acc ns ops res hok
    rw [goBT] at hok
    cases hflush : flushAux ops.length ns ops with
    | error e => rw [hflush] at hok; exact (Except.noConfusion hok)
    | ok ns' =>
      rw [hflush] at hok
      simp only [bind, Except.bind] at hok
      match ns', hok with
      | [n], hok =>
        cases hok
        simp
  | cons t ts ih =>
    intro st first prev i acc ns ops res hok
    rw [goBT] at hok
    by_cases hb1 : t.category = .PREFIX ∧ t.ttype = .GROUP
    · rw [if_pos hb1] at hok
      cases hr : recurse st .if_ none t.children with
      | error e =>
        simp only [hr, bind, Except.bind] at hok
        exact (Except.noConfusion hok)
      | ok p =>
        simp only [hr, bind, Except.bind] at hok
        exact ih _ _ _ _ _ _ _ _ hok
    · rw [if_neg hb1] at hok
      by_cases hb2 : t.category = .INFIX ∧ t.ttype = .GROUP
      · rw [if_pos hb2] at hok
        cases hr : recurse st ._then_ none t.children with
        | error e =>
          simp only [hr, bind, Except.bind] at hok
          exact (Except.noConfusion hok)
        | ok p =>
          simp only [hr, bind, Except.bind] at hok
          exact ih _ _ _ _ _ _ _ _ hok
      · rw [if_neg hb2] at hok
        by_cases hb3 : t.category = .OPERAND
        · rw [if_pos hb3] at hok
          cases hc : createNode hN recurse st t with
          | error e =>
            simp only [hc, bind, Except.bind] at hok
            exact (Except.noConfusion hok)
          | ok p =>
            simp only [hc, bind, Except.bind, pure, Except.pure] at hok
            repeat' split at hok
            all_goals
              first
                | exact (Except.noConfusion hok)
                | exact ih _ _ _ _ _ _ _ _ hok
        · rw [if_neg hb3] at hok
          by_cases hb4 : t.ttype = .SEPARATOR
          · rw [if_pos hb4] at hok
            cases hflush : flushAux ops.length ns ops with
            | error e =>
              simp only [hflush, bind, Except.bind] at hok
              exact (Except.noConfusion hok)
            | ok ns' =>
              simp only [hflush, bind, Except.bind] at hok
              match ns', hok with
              | [n], hok =>
                have := ih _ _ _ _ _ _ _ _ hok
                simp only [List.length_append, List.length_cons, List.length_nil] at this
                omega
          · rw [if_neg hb4] at hok
            by_cases hb5 : t.category = .INFIX
            · rw [if_pos hb5] at hok
              cases hty : infixTyOf t.value with
              | error e =>
                simp only [hty, bind, Except.bind] at hok
                exact (Except.noConfusion hok)
              | ok opTy =>
                simp only [hty, bind, Except.bind] at hok
                repeat' split at hok
                all_goals
                  first
                    | exact (Except.noConfusion hok)
                    | exact ih _ _ _ _ _ _ _ _ hok
            · rw [if_neg hb5] at hok
              exact ih _ _ _ _ _ _ _ _ hok

theorem buildTree_operands_nonempty {fuel : Nat} {hN : List String} {st : St}
    {ty : Ty} {idx : Option Nat} {toks : List Token} {n : Node} {st' : St}
    (hok : buildTree fuel hN st ty idx toks = .ok (n, st')) :
    1 ≤ n.operands.length := by
  cases fuel with
  | zero => exact (Except.noConfusion hok)
  | succ f =>
    rw [buildTree.eq_def] at hok
    cases hgo : goBT hN (buildTree f hN) st none none 0 toks [] [] [] with
    | error e =>
      simp only [hgo, bind, Except.bind] at hok
      exact (Except.noConfusion hok)
    | ok p =>
      simp only [hgo, bind, Except.bind] at hok
      cases hok
      have := goBT_acc_grows toks st none none 0 [] [] [] p hgo
      simp only [Node.operands, List.length_append]
      omega

/-! ## The claims -/

set_option maxRecDepth 400000

/-- The AST of `a ? x : b ? y : z` (variables in registration order
`a, x, b, y, z`). -/
def c5lhsAst : Node :=
  .mk .group [.node (.mk .if_then_else
    [.node (.mk .variable [.idx 0]),
     .node (.mk .group [.node (.mk .variable [.idx 1])]),
     .node (.mk .if_then_else
       [.node (.mk .variable [.idx 2]),
        .node (.mk .group [.node (.mk .variable [.idx 3])]),
        .node (.mk .variable [.idx 4])])])]

/-- The AST of `a ? x : (b ? y : z)`. -/
def c5rhsAst : Node :=
  .mk .group [.node (.mk .if_then_else
    [.node (.mk .variable [.idx 0]),
     .node (.mk .group [.node (.mk .variable [.idx 1])]),
     .node (.mk .group [.node (.mk .if_then_else
       [.node (.mk .variable [.idx 2]),
        .node (.mk .group [.node (.mk .variable [.idx 3])]),
        .node (.mk .variable [.idx 4])])])])]

/-- Claim C1, counterexample: evaluating `2^3^2` does not return `512`
(it returns `64`, because the tree builder pops an equal-precedence `^`
from the operator stack before pushing the next one, grouping
`(2^3)^2`). -/
theorem C1_counterexample : evalString "2^3^2" [] [] ≠ Except.ok 512 := by
  intro h
  rw [show evalString "2^3^2" [] [] = Except.ok 64 by with_unfolding_all rfl] at h
  have := Except.ok.inj h
  norm_num at this

/-- Claim C1, amended: exponentiation is left-associative.  For all numeric
literal lexemes `a`, `b`, `c`, building the tree of `a^b^c` produces
`exponentiate(exponentiate(a, b), c)`; in particular `2^3^2` evaluates to
`(2^3)^2 = 64`. -/
theorem C1_amended_theorem :
    (∀ (f : Nat) (sa sb sc : String),
      buildTree (f + 1) builtinNames st0 .group none
        [.mk .OPERAND .NUMBER sa [], .mk .INFIX .OPERATOR "^" [],
         .mk .OPERAND .NUMBER sb [], .mk .INFIX .OPERATOR "^" [],
         .mk .OPERAND .NUMBER sc []]
        = .ok (.mk .group [.node (.mk .exponentiate
            [.node (.mk .exponentiate
              [.node (.mk .literal [.num (stod sa)]),
               .node (.mk .literal [.num (stod sb)])]),
             .node (.mk .literal [.num (stod sc)])])], st0)) ∧
    evalString "2^3^2" [] [] = Except.ok 64 := by
  constructor
  · intro f sa sb sc
    rfl
  · with_unfolding_all rfl

/-- Claim C2, counterexample: evaluating `3 <= x < y` with `x = 4` and
`y = 4` does not return `0` (it returns `1`: `3 <= 4` is `1`, and `1 < 4`
is `1`). -/
theorem C2_counterexample : evalString "3 <= x < y" [4, 4] [] ≠ Except.ok 0 := by
  intro h
  rw [show evalString "3 <= x < y" [4, 4] [] = Except.ok 1 by
    with_unfolding_all rfl] at h
  have := Except.ok.inj h
  norm_num at this

/-- Claim C2, amended: chained comparisons are not special-cased and are
grouped left-to-right — `3 <= x < y` parses as `(3 <= x) < y` — so
evaluating it with `x = 4`, `y = 4` returns `1` (because `3 <= 4` is `1`
and `1 < 4` is `1`). -/
theorem C2_amended_theorem :
    parseExpr "3 <= x < y"
      = .ok (.mk .group [.node (.mk .less_than
          [.node (.mk .less_or_equal
            [.node (.mk .literal [.num 3]), .node (.mk .variable [.idx 0])]),
           .node (.mk .variable [.idx 1])])],
          ⟨["x", "y"], [], none⟩) ∧
    evalString "3 <= x < y" [4, 4] [] = Except.ok 1 := by
  constructor
  · with_unfolding_all rfl
  · with_unfolding_all rfl

/-- Claim C3, counterexample: for the expression `v := (w := 3)`, which is
of the form `v := rhs` and parses successfully, `getTarget()` returns
`"w"`, not `"v"` — the nested assignment inside the right-hand side
overwrites the target (and clears the variable table again). -/
theorem C3_counterexample :
    (parseExpr "v := (w := 3)").map (fun p => p.2.target) = Except.ok (some "w") ∧
    ("w" : String) ≠ "v" := by
  constructor
  · with_unfolding_all rfl
  · decide

/-- Claim C3, amended: for every expression `v := rhs` that parses
successfully and whose right-hand side contains no assignment operator,
`getTarget()` returns `v`, and `getVariables()` contains `v` if and only if
the right-hand side reads `v`; the left-hand-side occurrence alone does not
count as a read.  (`rest` is the token sequence of the right-hand side;
`readsList rest` lists the variable names it reads.) -/
theorem C3_amended_theorem :
    ∀ (fuel : Nat) (v : String) (rest : List Token) (n : Node) (st' : St),
      noAssignList rest = true →
      buildTree fuel builtinNames st0 .group none
        (Token.mk .OPERAND .VARIABLE v [] :: Token.mk .INFIX .OPERATOR ":=" [] :: rest)
        = .ok (n, st') →
      st'.target = some v ∧ (v ∈ st'.vars ↔ v ∈ readsList rest) :=
  c3_amended_aux

/-- Claim C3, witness: `v := 3` (an assignment-free right-hand side) at a
concrete run of the tree builder: the target is `v` and the variable table
is empty. -/
theorem C3_amended_witness :
    (⟨[], [], some "v"⟩ : St).target = some "v" ∧
    ("v" ∈ (⟨[], [], some "v"⟩ : St).vars ↔
      "v" ∈ readsList [Token.mk .OPERAND .NUMBER "3" []]) :=
  C3_amended_theorem 2 "v" [Token.mk .OPERAND .NUMBER "3" []]
    (Node.mk .group [.node (.mk .assign [.node (.mk .literal [.num 3])])])
    ⟨[], [], some "v"⟩ (by decide) (by with_unfolding_all rfl)

/-- Claim C5: the ternary operator is right-associative — for all truth
assignments to the conditions `a` and `b` (given as the values `1`/`0`)
and all values of `x`, `y`, `z`, evaluating `a ? x : b ? y : z` equals
evaluating `a ? x : (b ? y : z)`. -/
theorem C5_theorem :
    ∀ (a b : Bool) (x y z : ℚ),
      evalString "a ? x : b ? y : z"
        [(if a then 1 else 0), x, (if b then 1 else 0), y, z] []
      = evalString "a ? x : (b ? y : z)"
        [(if a then 1 else 0), x, (if b then 1 else 0), y, z] [] := by
  intro a b x y z
  have h1 : parseExpr "a ? x : b ? y : z"
      = .ok (c5lhsAst, ⟨["a", "x", "b", "y", "z"], [], none⟩) := by
    with_unfolding_all rfl
  have h2 : parseExpr "a ? x : (b ? y : z)"
      = .ok (c5rhsAst, ⟨["a", "x", "b", "y", "z"], [], none⟩) := by
    with_unfolding_all rfl
  unfold evalString
  rw [h1, h2]
  cases a <;> cases b <;> with_unfolding_all rfl

/-- Claim C6: a freshly constructed `Handle<double>` is seeded with exactly
the built-in callables `if_then_else`, `n_ary_if`, `abs`, `pow`, `sqrt`,
`cbrt`, `sum`, `avg`, `count`, `min`, `max`, `element_of`,
`not_element_of`, `at`, in that order, occupying the first positions
(`0 .. BUILTINS - 1`) of the callable-name table, so the evaluator can
address them by the `BUILTIN` enumeration constants. -/
theorem C6_theorem :
    handleInit = Except.ok ⟨builtinNames, builtinImpls⟩ ∧
    builtinNames
      = ["if_then_else", "n_ary_if", "abs", "pow", "sqrt", "cbrt", "sum",
         "avg", "count", "min", "max", "element_of", "not_element_of", "at"] ∧
    builtinNames.length = BUILTIN.BUILTINS.toIdx ∧
    builtinNames.get? BUILTIN.IF_THEN_ELSE.toIdx = some "if_then_else" ∧
    builtinNames.get? BUILTIN.N_ARY_IF.toIdx = some "n_ary_if" ∧
    builtinNames.get? BUILTIN.ABS.toIdx = some "abs" ∧
    builtinNames.get? BUILTIN.POW.toIdx = some "pow" ∧
    builtinNames.get? BUILTIN.SQRT.toIdx = some "sqrt" ∧
    builtinNames.get? BUILTIN.CBRT.toIdx = some "cbrt" ∧
    builtinNames.get? BUILTIN.SUM.toIdx = some "sum" ∧
    builtinNames.get? BUILTIN.AVG.toIdx = some "avg" ∧
    builtinNames.get? BUILTIN.COUNT.toIdx = some "count" ∧
    builtinNames.get? BUILTIN.MIN.toIdx = some "min" ∧
    builtinNames.get? BUILTIN.MAX.toIdx = some "max" ∧
    builtinNames.get? BUILTIN.ELEMENT_OF.toIdx = some "element_of" ∧
    builtinNames.get? BUILTIN.NOT_ELEMENT_OF.toIdx = some "not_element_of" ∧
    builtinNames.get? BUILTIN.AT.toIdx = some "at" := by
  refine ⟨?_, ?_, ?_, ?_, ?_, ?_, ?_, ?_, ?_, ?_, ?_, ?_, ?_, ?_, ?_, ?_, ?_⟩ <;>
    rfl



theorem szIdx_natCast {k : Nat} (hk : k < 2 ^ 64) :
    szIdx (k : ℚ) = if k = 0 then 2 ^ 64 - 1 else k - 1 := by
  have h0 : toSizeT (k : ℚ) = k := by
    rw [toSizeT, if_neg (not_lt.2 (by positivity : (0 : ℚ) ≤ (k : ℚ)))]
    rw [Rat.num_natCast, Rat.den_natCast]
    simp only [Int.toNat_natCast, Nat.div_one]
    omega
  rw [szIdx, h0]
  by_cases hk0 : k = 0
  · subst hk0; simp
  · rw [if_neg hk0]
    omega

/-- Claim C7: collection indexing is 1-based — for a collection bound to
the value list `v1, …, vN`, evaluating an `index` node whose index operand
is the literal `k` returns `v_k` for every `k` with `1 ≤ k ≤ N` and raises
the "Illegal index for collection" evaluation error for every other `k`
(`k = 0` wraps around to `2^64 - 1` under the `size_t` cast); the concrete
runs evaluate `c[2]`, `c[0]` and `c[4]` against the list `[10, 20, 30]`.
(A literal index token is always a nonnegative numeral; a surface-level
negative index parses as a `negate` node, whose value makes the C++
float-to-`size_t` cast undefined behaviour.) -/
theorem C7_theorem :
    (∀ (f cc k : Nat) (cvals : List ℚ) (ctxn : List String) (impls : List Impl),
      0 < cc → cvals.length < 2 ^ 64 → k < 2 ^ 64 →
      evaluate (f + 1) ⟨ctxn, impls, cc⟩
          (.mk .index [.idx 0, .node (.mk .literal [.num (k : ℚ)])]) [] [cvals]
        = if 1 ≤ k ∧ k ≤ cvals.length then .ok (cvals.getD (k - 1) 0)
          else .error "LIMEX: Illegal index for collection") ∧
    evalString "c[2]" [] [[10, 20, 30]] = .ok 20 ∧
    evalString "c[0]" [] [[10, 20, 30]] = .error "LIMEX: Illegal index for collection" ∧
    evalString "c[4]" [] [[10, 20, 30]] = .error "LIMEX: Illegal index for collection" := by
  refine ⟨?_, by with_unfolding_all rfl, by with_unfolding_all rfl, by with_unfolding_all rfl⟩
  intro f cc k cvals ctxn impls hcc hlen hk
  have hred : evaluate (f + 1) ⟨ctxn, impls, cc⟩
      (.mk .index [.idx 0, .node (.mk .literal [.num (k : ℚ)])]) [] [cvals]
      = (if cc ≤ 0 then Except.error "LIMEX: Illegal reference to collection"
         else if cvals.length ≤ szIdx (k : ℚ) then
           Except.error "LIMEX: Illegal index for collection"
         else Except.ok (cvals.getD (szIdx (k : ℚ)) 0)) := rfl
  rw [hred, if_neg (by omega), szIdx_natCast hk]
  by_cases h1 : 1 ≤ k ∧ k ≤ cvals.length
  · rw [if_pos h1]
    have hk0 : ¬(k = 0) := by omega
    simp only [if_neg hk0]
    rw [if_neg (by omega)]
  · rw [if_neg h1]
    by_cases hk0 : k = 0
    · simp only [if_pos hk0]
      rw [if_pos (by omega)]
    · simp only [if_neg hk0]
      rw [if_pos (by omega)]

/-- Claim C7, witness: index `2` into the three-element list `[10, 20, 30]`
returns the second element. -/
theorem C7_witness :
    (0 < 1 ∧ ([10, 20, 30] : List ℚ).length < 2 ^ 64 ∧ 2 < 2 ^ 64) ∧
    evaluate 1 ⟨builtinNames, builtinImpls, 1⟩
        (.mk .index [.idx 0, .node (.mk .literal [.num ((2 : Nat) : ℚ)])]) []
        [[10, 20, 30]]
      = if 1 ≤ 2 ∧ 2 ≤ ([10, 20, 30] : List ℚ).length
        then .ok (([10, 20, 30] : List ℚ).getD (2 - 1) 0)
        else .error "LIMEX: Illegal index for collection" := by
  refine ⟨⟨by norm_num, by norm_num, by norm_num⟩, ?_⟩
  exact C7_theorem.1 0 1 2 [10, 20, 30] builtinNames builtinImpls
    (by norm_num) (by norm_num) (by norm_num)



/-- Claim C8: when a function call or aggregation has exactly one argument
and that argument is a bare `collection` node, the collection's bound
value list is passed directly as the callable's argument list; in
particular evaluating `sum{collection[]}` with the collection bound to
`[2, 5, 3]` returns `10`. -/
theorem C8_theorem :
    (∀ (f cc c index : Nat) (names : List String) (impls : List Impl)
      (φ : Impl) (vals : List ℚ) (colls : List (List ℚ)) (l : List ℚ) (fc : Ty),
      (fc = .function_call ∨ fc = .aggregation) →
      index < names.length → index ≠ BUILTIN.AT.toIdx →
      impls.get? index = some φ → colls.get? c = some l →
      evaluate (f + 1) ⟨names, impls, cc⟩
          (.mk fc [.idx index, .node (.mk .collection [.idx c])]) vals colls
        = φ l) ∧
    evalString "sum{collection[]}" [] [[2, 5, 3]] = .ok 10 := by
  refine ⟨?_, by with_unfolding_all rfl⟩
  intro f cc c index names impls φ vals colls l fc hfc hlt hat himpl hcoll
  rcases hfc with rfl | rfl
  · have hred : evaluate (f + 1) ⟨names, impls, cc⟩
        (.mk .function_call [.idx index, .node (.mk .collection [.idx c])]) vals colls
        = (if names.length ≤ index then Except.error "LIMEX: Callable index out of range"
           else if index = BUILTIN.AT.toIdx then
             Except.error "LIMEX: unexpected use of built-in 'at' for double"
           else
             match colls.get? c with
             | some lv =>
               (match impls.get? index with
                | some impl => impl lv
                | none => Except.error "MODEL: implementation missing")
             | none => Except.error "MODEL: collection value out of range") := rfl
    rw [hred, if_neg (by omega), if_neg hat, hcoll, himpl]
  · have hred : evaluate (f + 1) ⟨names, impls, cc⟩
        (.mk .aggregation [.idx index, .node (.mk .collection [.idx c])]) vals colls
        = (if names.length ≤ index then Except.error "LIMEX: Callable index out of range"
           else if index = BUILTIN.AT.toIdx then
             Except.error "LIMEX: unexpected use of built-in 'at' for double"
           else
             match colls.get? c with
             | some lv =>
               (match impls.get? index with
                | some impl => impl lv
                | none => Except.error "MODEL: implementation missing")
             | none => Except.error "MODEL: collection value out of range") := rfl
    rw [hred, if_neg (by omega), if_neg hat, hcoll, himpl]

/-- Claim C8, witness: the `sum` aggregation (callable index 6) over the
bare collection bound to `[2, 5, 3]` receives exactly that list. -/
theorem C8_witness :
    evaluate 1 ⟨builtinNames, builtinImpls, 1⟩
        (.mk .aggregation [.idx 6, .node (.mk .collection [.idx 0])]) [] [[2, 5, 3]]
      = (builtinImpls.get! 6) [2, 5, 3] := by
  have h := C8_theorem.1 0 1 0 6 builtinNames builtinImpls (builtinImpls.get! 6)
    [] [[2, 5, 3]] [2, 5, 3] .aggregation (Or.inr rfl) (by norm_num [builtinNames])
    (by decide) (by with_unfolding_all rfl) rfl
  exact h

/-- Claim C9: for an arithmetic numeric type, a compound division
assignment node (`divide_assign`, surface syntax `v /= rhs`) never raises
the "Division by zero" error — it applies the host division unguarded even
when the right-hand side evaluates to `0` — unlike the `divide` node,
which raises "Division by zero" whenever its divisor evaluates to `0`.
(The value of the model's division at a zero divisor stands in for the
IEEE ±inf/NaN, which the rational model cannot represent; the claim
concerns only whether an error is raised.) -/
theorem C9_theorem :
    ∀ (f : Nat) (ctx : Ctx) (l r : Node) (vals : List ℚ) (colls : List (List ℚ))
      (vl vr : ℚ),
      evaluate f ctx l vals colls = .ok vl →
      evaluate f ctx r vals colls = .ok vr →
      evaluate (f + 1) ctx (.mk .divide_assign [.node l, .node r]) vals colls
        = .ok (vl / vr) ∧
      (vr = 0 →
        evaluate (f + 1) ctx (.mk .divide [.node l, .node r]) vals colls
          = .error "LIMEX: Division by zero") ∧
      (vr ≠ 0 →
        evaluate (f + 1) ctx (.mk .divide [.node l, .node r]) vals colls
          = .ok (vl / vr)) := by
  intro f ctx l r vals colls vl vr hl hr
  have ha : evaluate (f + 1) ctx (.mk .divide_assign [.node l, .node r]) vals colls
      = (do
          let a ← evaluate f ctx l vals colls
          let b ← evaluate f ctx r vals colls
          pure (a / b)) := rfl
  have hd : evaluate (f + 1) ctx (.mk .divide [.node l, .node r]) vals colls
      = (do
          let a ← evaluate f ctx l vals colls
          let b ← evaluate f ctx r vals colls
          if b = 0 then Except.error "LIMEX: Division by zero" else pure (a / b)) := rfl
  refine ⟨?_, ?_, ?_⟩
  · rw [ha, hl, hr]
    rfl
  · intro h0
    subst h0
    rw [hd, hl, hr]
    with_unfolding_all rfl
  · intro h0
    rw [hd, hl, hr]
    simp only [bind, Except.bind, if_neg h0]
    rfl

/-- Claim C9, witness: dividing the literal `5` by the literal `0` —
`divide_assign` returns a value, `divide` raises "Division by zero". -/
theorem C9_witness :
    evaluate 2 ⟨[], [], 0⟩ (.mk .divide_assign
        [.node (.mk .literal [.num 5]), .node (.mk .literal [.num 0])]) [] []
      = .ok ((5 : ℚ) / 0) ∧
    evaluate 2 ⟨[], [], 0⟩ (.mk .divide
        [.node (.mk .literal [.num 5]), .node (.mk .literal [.num 0])]) [] []
      = .error "LIMEX: Division by zero" := by
  have h := C9_theorem 1 ⟨[], [], 0⟩ (.mk .literal [.num 5]) (.mk .literal [.num 0])
    [] [] 5 0 rfl rfl
  exact ⟨h.1, h.2.1 rfl⟩

/-- Claim C10, counterexample: the empty group `()` is rejected during
tokenization with an "Unexpected operand" error, not during tree building
with an "Invalid expression" error. -/
theorem C10_counterexample :
    evalString "()" [] [] = Except.error "LIMEX: Unexpected operand" ∧
    ("LIMEX: Unexpected operand" : Err)
      ≠ "LIMEX: Invalid expression - unmatched operators or operands" := by
  constructor
  · with_unfolding_all rfl
  · decide

/-- Claim C10, amended: building a tree from an empty token sequence
always throws "Invalid expression - unmatched operators or operands";
empty bracketed regions (`()`, `{}`, `[]` in operand position, `f()`,
`sum{}`) are rejected earlier, during tokenization, with an "Unexpected
operand" error; consequently every node produced by a successful
`buildTree` call — in particular every set, sequence, group and call node
of a finished AST — has at least one operand. -/
theorem C10_amended_theorem :
    (∀ (f : Nat) (hN : List String) (st : St) (ty : Ty) (idx : Option Nat),
      buildTree (f + 1) hN st ty idx []
        = .error "LIMEX: Invalid expression - unmatched operators or operands") ∧
    tokenizeStr "()" = .error "LIMEX: Unexpected operand" ∧
    tokenizeStr "{}" = .error "LIMEX: Unexpected operand" ∧
    tokenizeStr "[]" = .error "LIMEX: Unexpected operand" ∧
    tokenizeStr "f()" = .error "LIMEX: Unexpected operand" ∧
    tokenizeStr "sum{}" = .error "LIMEX: Unexpected operand" ∧
    (∀ (fuel : Nat) (hN : List String) (st : St) (ty : Ty) (idx : Option Nat)
      (toks : List Token) (n : Node) (st' : St),
      buildTree fuel hN st ty idx toks = .ok (n, st') → 1 ≤ n.operands.length) := by
  refine ⟨?_, by with_unfolding_all rfl, by with_unfolding_all rfl,
    by with_unfolding_all rfl, by with_unfolding_all rfl, by with_unfolding_all rfl, ?_⟩
  · intro f hN st ty idx
    rfl
  · intro fuel hN st ty idx toks n st' hok
    exact buildTree_operands_nonempty hok

/-- Claim C10, witness: a successful `buildTree` run on a single literal
token yields a node with at least one operand. -/
theorem C10_amended_witness :
    1 ≤ (Node.mk .group [.node (.mk .literal [.num 3])]).operands.length := by
  refine C10_amended_theorem.2.2.2.2.2.2 2 builtinNames st0 .group none
    [Token.mk .OPERAND .NUMBER "3" []] _ st0 ?_
  with_unfolding_all rfl



theorem stageOperand_ident (c : Char) (r : List Char)
    (h3 : fetch (c :: r) keywordsList = [])
    (h4 : startsWithL (c :: r) ("if").data = false)
    (h5 : startsWithL (c :: r) ("then").data = false)
    (h6 : startsWithL (c :: r) ("else").data = false)
    (h7 : isnumeric c = false)
    (h8 : isalphanumeric c = true)
    (h9 : (c :: r).takeWhile isalphanumeric = c :: r)
    (h10 : (c :: r).dropWhile isalphanumeric = []) :
    ∀ fs, stageOperand (c :: r) fs
      = .ok (.fall [] .POSTFIX
          (appendTop fs (.mk .OPERAND .VARIABLE ⟨c :: r⟩ []))) := by
  intro fs
  rw [stageOperand]
  simp only [h3, h4, h5, h6, h7, h8, h9, h10, ne_eq, not_true_eq_false,
    if_false, Bool.false_eq_true, Bool.or_self, if_true, reduceCtorEq,
    not_false_eq_true, if_neg, ite_false, ite_true]
  rfl



theorem tokenize_of_ident (c : Char) (r : List Char)
    (h1 : isspace c = false)
    (h2 : fetch (c :: r) prefixOps = [])
    (hop : stageOperand (c :: r) [initFrame]
      = .ok (.fall [] .POSTFIX
          (appendTop [initFrame] (.mk .OPERAND .VARIABLE ⟨c :: r⟩ [])))) :
    tokenize (c :: r)
      = .ok (.mk .OPERAND .GROUP "" [.mk .OPERAND .VARIABLE ⟨c :: r⟩ []]) := by
  rw [tokenize, tokLoop]
  rw [iter]
  simp only [List.dropWhile_cons, h1, Bool.false_eq_true, if_false,
    reduceCtorEq, if_neg, ite_false, h2, ne_eq, not_true_eq_false]
  simp only [bind, Except.bind, pure, Except.pure, hop]
  rfl



/-- Matching a candidate word against input that continues past it: the
word-boundary check of `Expression::startsWith` succeeds exactly when the
next character is not an identifier character. -/
theorem startsWithL_self_append (w rest : List Char) (lc : Char)
    (hl : w.getLast? = some lc) (halnum : isalphanumeric lc = true) :
    startsWithL (w ++ rest) w
      = (match rest with | [] => true | d :: _ => !(isalphanumeric d)) := by
  rw [startsWithL, hl]
  have hpre : w.isPrefixOf (w ++ rest) = true := by
    rw [List.isPrefixOf_iff_prefix]
    exact List.prefix_append w rest
  rw [hpre]
  simp only [Bool.true_and, halnum, if_true, List.drop_left]

theorem startsWithL_self (w : List Char) : startsWithL w w = true := by
  have h : startsWithL (w ++ []) w
      = (match ([] : List Char) with | [] => true | d :: _ => !(isalphanumeric d)) := by
    cases hl : w.getLast? with
    | none =>
      rw [List.getLast?_eq_none_iff] at hl
      subst hl
      rfl
    | some lc =>
      by_cases halnum : isalphanumeric lc = true
      · exact startsWithL_self_append w [] lc hl halnum
      · rw [startsWithL, hl]
        have hpre : w.isPrefixOf (w ++ []) = true := by
          rw [List.isPrefixOf_iff_prefix]
          exact List.prefix_append w []
        rw [hpre]
        simp only [Bool.not_eq_true] at halnum
        simp [halnum]
  rw [List.append_nil] at h
  exact h



/-- The textual operators and keywords subject to the word-boundary rule. -/
def textualKeywords : List String :=
  ["and", "or", "in", "not in", "if", "then", "else", "true", "false"]

/-- Claim C4: a textual operator or keyword (`and`, `or`, `in`, `not in`,
`if`, `then`, `else`, `true`, `false`) is recognized only when the
character immediately after it is not an identifier character or is
end-of-input; consequently, for every identifier that merely begins with
such a word in operand position, tokenization produces a VARIABLE token
for the whole identifier, not the operator. -/
theorem C4_theorem :
    (∀ w : String, w ∈ textualKeywords → startsWithL w.data w.data = true) ∧
    (∀ w : String, w ∈ textualKeywords → ∀ (c : Char) (t' : List Char),
      isalphanumeric c = false → startsWithL (w.data ++ c :: t') w.data = true) ∧
    (∀ w : String, w ∈ textualKeywords → ∀ (c : Char) (t' : List Char),
      isalphanumeric c = true → startsWithL (w.data ++ c :: t') w.data = false) ∧
    (∀ w : String, w ∈ textualKeywords → ∀ t : List Char, t ≠ [] →
      (∀ x ∈ (w.data ++ t), isalphanumeric x = true) →
      (∀ fs, stageOperand (w.data ++ t) fs
        = .ok (.fall [] .POSTFIX (appendTop fs (.mk .OPERAND .VARIABLE ⟨w.data ++ t⟩ [])))) ∧
      tokenize (w.data ++ t)
        = .ok (.mk .OPERAND .GROUP "" [.mk .OPERAND .VARIABLE ⟨w.data ++ t⟩ []])) := by
  refine ⟨fun w _ => startsWithL_self w.data, ?_, ?_, ?_⟩
  · intro w hw c t' h
    simp only [textualKeywords, List.mem_cons, List.not_mem_nil, or_false] at hw
    rcases hw with rfl | rfl | rfl | rfl | rfl | rfl | rfl | rfl | rfl
    · rw [startsWithL_self_append ("and").data (c :: t') 'd' rfl rfl]
      simp [h]
    · rw [startsWithL_self_append ("or").data (c :: t') 'r' rfl rfl]
      simp [h]
    · rw [startsWithL_self_append ("in").data (c :: t') 'n' rfl rfl]
      simp [h]
    · rw [startsWithL_self_append ("not in").data (c :: t') 'n' rfl rfl]
      simp [h]
    · rw [startsWithL_self_append ("if").data (c :: t') 'f' rfl rfl]
      simp [h]
    · rw [startsWithL_self_append ("then").data (c :: t') 'n' rfl rfl]
      simp [h]
    · rw [startsWithL_self_append ("else").data (c :: t') 'e' rfl rfl]
      simp [h]
    · rw [startsWithL_self_append ("true").data (c :: t') 'e' rfl rfl]
      simp [h]
    · rw [startsWithL_self_append ("false").data (c :: t') 'e' rfl rfl]
      simp [h]
  · intro w hw c t' h
    simp only [textualKeywords, List.mem_cons, List.not_mem_nil, or_false] at hw
    rcases hw with rfl | rfl | rfl | rfl | rfl | rfl | rfl | rfl | rfl
    · rw [startsWithL_self_append ("and").data (c :: t') 'd' rfl rfl]
      simp [h]
    · rw [startsWithL_self_append ("or").data (c :: t') 'r' rfl rfl]
      simp [h]
    · rw [startsWithL_self_append ("in").data (c :: t') 'n' rfl rfl]
      simp [h]
    · rw [startsWithL_self_append ("not in").data (c :: t') 'n' rfl rfl]
      simp [h]
    · rw [startsWithL_self_append ("if").data (c :: t') 'f' rfl rfl]
      simp [h]
    · rw [startsWithL_self_append ("then").data (c :: t') 'n' rfl rfl]
      simp [h]
    · rw [startsWithL_self_append ("else").data (c :: t') 'e' rfl rfl]
      simp [h]
    · rw [startsWithL_self_append ("true").data (c :: t') 'e' rfl rfl]
      simp [h]
    · rw [startsWithL_self_append ("false").data (c :: t') 'e' rfl rfl]
      simp [h]
  · intro w hw t ht hall
    simp only [textualKeywords, List.mem_cons, List.not_mem_nil, or_false] at hw
    rcases hw with rfl | rfl | rfl | rfl | rfl | rfl | rfl | rfl | rfl
    · cases t with
      | nil => exact absurd rfl ht
      | cons c t' =>
        have hc : isalphanumeric c = true := hall c (by simp)
        have hall' : ∀ x ∈ ('a' :: 'n' :: 'd' :: c :: t'), isalphanumeric x = true := by
          simpa only [show ("and").data = ['a', 'n', 'd'] from rfl, List.cons_append, List.nil_append] using hall
        have hkw : fetch ('a' :: 'n' :: 'd' :: c :: t') keywordsList = [] := by
          simp [keywordsList, fetch, startsWithL, List.isPrefixOf]
        have hif : startsWithL ('a' :: 'n' :: 'd' :: c :: t') ("if").data = false := by
          simp [startsWithL, List.isPrefixOf]
        have hthen : startsWithL ('a' :: 'n' :: 'd' :: c :: t') ("then").data = false := by
          simp [startsWithL, List.isPrefixOf]
        have helse : startsWithL ('a' :: 'n' :: 'd' :: c :: t') ("else").data = false := by
          simp [startsWithL, List.isPrefixOf]
        have hop := stageOperand_ident 'a' ('n' :: 'd' :: c :: t') hkw hif hthen helse rfl rfl
          (List.takeWhile_eq_self_iff.2 hall') (List.dropWhile_eq_nil_iff.2 hall')
        constructor
        · intro fs
          simpa only [show ("and").data = ['a', 'n', 'd'] from rfl, List.cons_append, List.nil_append] using hop fs
        · have htok := tokenize_of_ident 'a' ('n' :: 'd' :: c :: t') rfl
            (by simp [prefixOps, fetch, startsWithL, List.isPrefixOf]) (hop _)
          simpa only [show ("and").data = ['a', 'n', 'd'] from rfl, List.cons_append, List.nil_append] using htok
    · cases t with
      | nil => exact absurd rfl ht
      | cons c t' =>
        have hc : isalphanumeric c = true := hall c (by simp)
        have hall' : ∀ x ∈ ('o' :: 'r' :: c :: t'), isalphanumeric x = true := by
          simpa only [show ("or").data = ['o', 'r'] from rfl, List.cons_append, List.nil_append] using hall
        have hkw : fetch ('o' :: 'r' :: c :: t') keywordsList = [] := by
          simp [keywordsList, fetch, startsWithL, List.isPrefixOf]
        have hif : startsWithL ('o' :: 'r' :: c :: t') ("if").data = false := by
          simp [startsWithL, List.isPrefixOf]
        have hthen : startsWithL ('o' :: 'r' :: c :: t') ("then").data = false := by
          simp [startsWithL, List.isPrefixOf]
        have helse : startsWithL ('o' :: 'r' :: c :: t') ("else").data = false := by
          simp [startsWithL, List.isPrefixOf]
        have hop := stageOperand_ident 'o' ('r' :: c :: t') hkw hif hthen helse rfl rfl
          (List.takeWhile_eq_self_iff.2 hall') (List.dropWhile_eq_nil_iff.2 hall')
        constructor
        · intro fs
          simpa only [show ("or").data = ['o', 'r'] from rfl, List.cons_append, List.nil_append] using hop fs
        · have htok := tokenize_of_ident 'o' ('r' :: c :: t') rfl
            (by simp [prefixOps, fetch, startsWithL, List.isPrefixOf]) (hop _)
          simpa only [show ("or").data = ['o', 'r'] from rfl, List.cons_append, List.nil_append] using htok
    · cases t with
      | nil => exact absurd rfl ht
      | cons c t' =>
        have hc : isalphanumeric c = true := hall c (by simp)
        have hall' : ∀ x ∈ ('i' :: 'n' :: c :: t'), isalphanumeric x = true := by
          simpa only [show ("in").data = ['i', 'n'] from rfl, List.cons_append, List.nil_append] using hall
        have hkw : fetch ('i' :: 'n' :: c :: t') keywordsList = [] := by
          simp [keywordsList, fetch, startsWithL, List.isPrefixOf]
        have hif : startsWithL ('i' :: 'n' :: c :: t') ("if").data = false := by
          simp [startsWithL, List.isPrefixOf]
        have hthen : startsWithL ('i' :: 'n' :: c :: t') ("then").data = false := by
          simp [startsWithL, List.isPrefixOf]
        have helse : startsWithL ('i' :: 'n' :: c :: t') ("else").data = false := by
          simp [startsWithL, List.isPrefixOf]
        have hop := stageOperand_ident 'i' ('n' :: c :: t') hkw hif hthen helse rfl rfl
          (List.takeWhile_eq_self_iff.2 hall') (List.dropWhile_eq_nil_iff.2 hall')
        constructor
        · intro fs
          simpa only [show ("in").data = ['i', 'n'] from rfl, List.cons_append, List.nil_append] using hop fs
        · have htok := tokenize_of_ident 'i' ('n' :: c :: t') rfl
            (by simp [prefixOps, fetch, startsWithL, List.isPrefixOf]) (hop _)
          simpa only [show ("in").data = ['i', 'n'] from rfl, List.cons_append, List.nil_append] using htok
    · -- "not in" contains a space, which is not an identifier character
      exfalso
      have hsp := hall ' ' (by simp [show ("not in").data = ['n', 'o', 't', ' ', 'i', 'n'] from rfl])
      exact absurd hsp (by decide)
    · cases t with
      | nil => exact absurd rfl ht
      | cons c t' =>
        have hc : isalphanumeric c = true := hall c (by simp)
        have hall' : ∀ x ∈ ('i' :: 'f' :: c :: t'), isalphanumeric x = true := by
          simpa only [show ("if").data = ['i', 'f'] from rfl, List.cons_append, List.nil_append] using hall
        have hself : startsWithL ('i' :: 'f' :: c :: t') ("if").data = false := by
          have hx := startsWithL_self_append ("if").data (c :: t') 'f' rfl rfl
          simp only [show ("if").data = ['i', 'f'] from rfl, List.cons_append, List.nil_append] at hx
          rw [hx, hc]
          rfl
        have hkw : fetch ('i' :: 'f' :: c :: t') keywordsList = [] := by
          simp [keywordsList, fetch, startsWithL, List.isPrefixOf]
        have hif : startsWithL ('i' :: 'f' :: c :: t') ("if").data = false := hself
        have hthen : startsWithL ('i' :: 'f' :: c :: t') ("then").data = false := by
          simp [startsWithL, List.isPrefixOf]
        have helse : startsWithL ('i' :: 'f' :: c :: t') ("else").data = false := by
          simp [startsWithL, List.isPrefixOf]
        have hop := stageOperand_ident 'i' ('f' :: c :: t') hkw hif hthen helse rfl rfl
          (List.takeWhile_eq_self_iff.2 hall') (List.dropWhile_eq_nil_iff.2 hall')
        constructor
        · intro fs
          simpa only [show ("if").data = ['i', 'f'] from rfl, List.cons_append, List.nil_append] using hop fs
        · have htok := tokenize_of_ident 'i' ('f' :: c :: t') rfl
            (by simp [prefixOps, fetch, startsWithL, List.isPrefixOf]) (hop _)
          simpa only [show ("if").data = ['i', 'f'] from rfl, List.cons_append, List.nil_append] using htok
    · cases t with
      | nil => exact absurd rfl ht
      | cons c t' =>
        have hc : isalphanumeric c = true := hall c (by simp)
        have hall' : ∀ x ∈ ('t' :: 'h' :: 'e' :: 'n' :: c :: t'), isalphanumeric x = true := by
          simpa only [show ("then").data = ['t', 'h', 'e', 'n'] from rfl, List.cons_append, List.nil_append] using hall
        have hself : startsWithL ('t' :: 'h' :: 'e' :: 'n' :: c :: t') ("then").data = false := by
          have hx := startsWithL_self_append ("then").data (c :: t') 'n' rfl rfl
          simp only [show ("then").data = ['t', 'h', 'e', 'n'] from rfl, List.cons_append, List.nil_append] at hx
          rw [hx, hc]
          rfl
        have hkw : fetch ('t' :: 'h' :: 'e' :: 'n' :: c :: t') keywordsList = [] := by
          simp [keywordsList, fetch, startsWithL, List.isPrefixOf]
        have hif : startsWithL ('t' :: 'h' :: 'e' :: 'n' :: c :: t') ("if").data = false := by
          simp [startsWithL, List.isPrefixOf]
        have hthen : startsWithL ('t' :: 'h' :: 'e' :: 'n' :: c :: t') ("then").data = false := hself
        have helse : startsWithL ('t' :: 'h' :: 'e' :: 'n' :: c :: t') ("else").data = false := by
          simp [startsWithL, List.isPrefixOf]
        have hop := stageOperand_ident 't' ('h' :: 'e' :: 'n' :: c :: t') hkw hif hthen helse rfl rfl
          (List.takeWhile_eq_self_iff.2 hall') (List.dropWhile_eq_nil_iff.2 hall')
        constructor
        · intro fs
          simpa only [show ("then").data = ['t', 'h', 'e', 'n'] from rfl, List.cons_append, List.nil_append] using hop fs
        · have htok := tokenize_of_ident 't' ('h' :: 'e' :: 'n' :: c :: t') rfl
            (by simp [prefixOps, fetch, startsWithL, List.isPrefixOf]) (hop _)
          simpa only [show ("then").data = ['t', 'h', 'e', 'n'] from rfl, List.cons_append, List.nil_append] using htok
    · cases t with
      | nil => exact absurd rfl ht
      | cons c t' =>
        have hc : isalphanumeric c = true := hall c (by simp)
        have hall' : ∀ x ∈ ('e' :: 'l' :: 's' :: 'e' :: c :: t'), isalphanumeric x = true := by
          simpa only [show ("else").data = ['e', 'l', 's', 'e'] from rfl, List.cons_append, List.nil_append] using hall
        have hself : startsWithL ('e' :: 'l' :: 's' :: 'e' :: c :: t') ("else").data = false := by
          have hx := startsWithL_self_append ("else").data (c :: t') 'e' rfl rfl
          simp only [show ("else").data = ['e', 'l', 's', 'e'] from rfl, List.cons_append, List.nil_append] at hx
          rw [hx, hc]
          rfl
        have hkw : fetch ('e' :: 'l' :: 's' :: 'e' :: c :: t') keywordsList = [] := by
          simp [keywordsList, fetch, startsWithL, List.isPrefixOf]
        have hif : startsWithL ('e' :: 'l' :: 's' :: 'e' :: c :: t') ("if").data = false := by
          simp [startsWithL, List.isPrefixOf]
        have hthen : startsWithL ('e' :: 'l' :: 's' :: 'e' :: c :: t') ("then").data = false := by
          simp [startsWithL, List.isPrefixOf]
        have helse : startsWithL ('e' :: 'l' :: 's' :: 'e' :: c :: t') ("else").data = false := hself
        have hop := stageOperand_ident 'e' ('l' :: 's' :: 'e' :: c :: t') hkw hif hthen helse rfl rfl
          (List.takeWhile_eq_self_iff.2 hall') (List.dropWhile_eq_nil_iff.2 hall')
        constructor
        · intro fs
          simpa only [show ("else").data = ['e', 'l', 's', 'e'] from rfl, List.cons_append, List.nil_append] using hop fs
        · have htok := tokenize_of_ident 'e' ('l' :: 's' :: 'e' :: c :: t') rfl
            (by simp [prefixOps, fetch, startsWithL, List.isPrefixOf]) (hop _)
          simpa only [show ("else").data = ['e', 'l', 's', 'e'] from rfl, List.cons_append, List.nil_append] using htok
    · cases t with
      | nil => exact absurd rfl ht
      | cons c t' =>
        have hc : isalphanumeric c = true := hall c (by simp)
        have hall' : ∀ x ∈ ('t' :: 'r' :: 'u' :: 'e' :: c :: t'), isalphanumeric x = true := by
          simpa only [show ("true").data = ['t', 'r', 'u', 'e'] from rfl, List.cons_append, List.nil_append] using hall
        have hself : startsWithL ('t' :: 'r' :: 'u' :: 'e' :: c :: t') ("true").data = false := by
          have hx := startsWithL_self_append ("true").data (c :: t') 'e' rfl rfl
          simp only [show ("true").data = ['t', 'r', 'u', 'e'] from rfl, List.cons_append, List.nil_append] at hx
          rw [hx, hc]
          rfl
        have hkw : fetch ('t' :: 'r' :: 'u' :: 'e' :: c :: t') keywordsList = [] := by
          have hother : startsWithL ('t' :: 'r' :: 'u' :: 'e' :: c :: t') ("false").data = false := by
            simp [startsWithL, List.isPrefixOf]
          simp only [keywordsList, fetch, hother, hself, Bool.false_eq_true, if_false]
        have hif : startsWithL ('t' :: 'r' :: 'u' :: 'e' :: c :: t') ("if").data = false := by
          simp [startsWithL, List.isPrefixOf]
        have hthen : startsWithL ('t' :: 'r' :: 'u' :: 'e' :: c :: t') ("then").data = false := by
          simp [startsWithL, List.isPrefixOf]
        have helse : startsWithL ('t' :: 'r' :: 'u' :: 'e' :: c :: t') ("else").data = false := by
          simp [startsWithL, List.isPrefixOf]
        have hop := stageOperand_ident 't' ('r' :: 'u' :: 'e' :: c :: t') hkw hif hthen helse rfl rfl
          (List.takeWhile_eq_self_iff.2 hall') (List.dropWhile_eq_nil_iff.2 hall')
        constructor
        · intro fs
          simpa only [show ("true").data = ['t', 'r', 'u', 'e'] from rfl, List.cons_append, List.nil_append] using hop fs
        · have htok := tokenize_of_ident 't' ('r' :: 'u' :: 'e' :: c :: t') rfl
            (by simp [prefixOps, fetch, startsWithL, List.isPrefixOf]) (hop _)
          simpa only [show ("true").data = ['t', 'r', 'u', 'e'] from rfl, List.cons_append, List.nil_append] using htok
    · cases t with
      | nil => exact absurd rfl ht
      | cons c t' =>
        have hc : isalphanumeric c = true := hall c (by simp)
        have hall' : ∀ x ∈ ('f' :: 'a' :: 'l' :: 's' :: 'e' :: c :: t'), isalphanumeric x = true := by
          simpa only [show ("false").data = ['f', 'a', 'l', 's', 'e'] from rfl, List.cons_append, List.nil_append] using hall
        have hself : startsWithL ('f' :: 'a' :: 'l' :: 's' :: 'e' :: c :: t') ("false").data = false := by
          have hx := startsWithL_self_append ("false").data (c :: t') 'e' rfl rfl
          simp only [show ("false").data = ['f', 'a', 'l', 's', 'e'] from rfl, List.cons_append, List.nil_append] at hx
          rw [hx, hc]
          rfl
        have hkw : fetch ('f' :: 'a' :: 'l' :: 's' :: 'e' :: c :: t') keywordsList = [] := by
          have hother : startsWithL ('f' :: 'a' :: 'l' :: 's' :: 'e' :: c :: t') ("true").data = false := by
            simp [startsWithL, List.isPrefixOf]
          simp only [keywordsList, fetch, hother, hself, Bool.false_eq_true, if_false]
        have hif : startsWithL ('f' :: 'a' :: 'l' :: 's' :: 'e' :: c :: t') ("if").data = false := by
          simp [startsWithL, List.isPrefixOf]
        have hthen : startsWithL ('f' :: 'a' :: 'l' :: 's' :: 'e' :: c :: t') ("then").data = false := by
          simp [startsWithL, List.isPrefixOf]
        have helse : startsWithL ('f' :: 'a' :: 'l' :: 's' :: 'e' :: c :: t') ("else").data = false := by
          simp [startsWithL, List.isPrefixOf]
        have hop := stageOperand_ident 'f' ('a' :: 'l' :: 's' :: 'e' :: c :: t') hkw hif hthen helse rfl rfl
          (List.takeWhile_eq_self_iff.2 hall') (List.dropWhile_eq_nil_iff.2 hall')
        constructor
        · intro fs
          simpa only [show ("false").data = ['f', 'a', 'l', 's', 'e'] from rfl, List.cons_append, List.nil_append] using hop fs
        · have htok := tokenize_of_ident 'f' ('a' :: 'l' :: 's' :: 'e' :: c :: t') rfl
            (by simp [prefixOps, fetch, startsWithL, List.isPrefixOf]) (hop _)
          simpa only [show ("false").data = ['f', 'a', 'l', 's', 'e'] from rfl, List.cons_append, List.nil_append] using htok

/-- Claim C4, witness: the identifier `orange` (`or` followed by `ange`)
tokenizes to a single VARIABLE token. -/
theorem C4_witness :
    (∀ fs, stageOperand ("or".data ++ "ange".data) fs
      = .ok (.fall [] .POSTFIX (appendTop fs
          (.mk .OPERAND .VARIABLE ⟨"or".data ++ "ange".data⟩ [])))) ∧
    tokenize ("or".data ++ "ange".data)
      = .ok (.mk .OPERAND .GROUP "" [.mk .OPERAND .VARIABLE ⟨"or".data ++ "ange".data⟩ []]) :=
  C4_theorem.2.2.2 "or" (by decide) "ange".data (by decide) (by decide)

end LIMEX
